import Mathlib

/-!
Verification of the deterministic placement/classification core of the
`mnecrafttools` rust-cli (src/structures.rs, src/algorithms/biome.rs).

Modelling conventions:
* Rust `i64`/`i32` values are embedded as `ℤ`; every operation that can
  overflow in the source is followed by an explicit reduction `wrap64`/`wrap32`
  into the signed 64-bit / 32-bit range (the spec, §3 and §9, mandates
  wrap-on-overflow semantics for all of this arithmetic).
* Rust `/` and `%` on signed integers are truncating division/remainder;
  they are embedded as `Int.tdiv`/`Int.tmod` (for a non-negative dividend the
  source's `%` coincides with `Int.emod`, which is used where the dividend is
  known non-negative).
* `i64::abs` on a value first widened from `i32` is exact, embedded via
  `Int.natAbs`.
* Consecutive wrapping operations may be fused into a single `wrap` of the
  exact expression: `wrap64 (wrap64 a + b) = wrap64 (a + b)` (proved below as
  the `wrap64_add_left` family), so fused occurrences are still faithful.
-/

/-- Signed 64-bit wrap-around: reduces an integer into `[-2^63, 2^63)`,
the value a Rust `i64` holds after wrapping arithmetic. -/
def wrap64 (n : ℤ) : ℤ := (n + 2 ^ 63) % 2 ^ 64 - 2 ^ 63

/-- Signed 32-bit wrap-around: reduces an integer into `[-2^31, 2^31)`,
the value a Rust `i32` holds after wrapping arithmetic (also the effect of
a Rust `as i32` cast from `i64`). -/
def wrap32 (n : ℤ) : ℤ := (n + 2 ^ 31) % 2 ^ 32 - 2 ^ 31

/-- The inclusive integer range `[lo, hi]` as a list (Rust `lo..=hi`);
empty when `hi < lo`. -/
def intRange (lo hi : ℤ) : List ℤ :=
  (List.range (hi + 1 - lo).toNat).map (fun i : ℕ => lo + (i : ℤ))

/-- Rust enum `StructureType` from src/structures.rs. -/
inductive StructureType where
  | Village
  | PillagerOutpost
  | OceanMonument
  | WoodlandMansion
  | NetherFortress
  | BastionRemnant
  | Igloo
  | WitchHut
  | Shipwreck
  | BuriedTreasure
deriving DecidableEq, Repr

namespace StructureType

/-- Table `StructureType::display_name` from src/structures.rs. -/
def display_name : StructureType → String
  | Village => "🏘️ 村"
  | PillagerOutpost => "⚔️ 前哨基地"
  | OceanMonument => "🌊 海底神殿"
  | WoodlandMansion => "🏰 森の洋館"
  | NetherFortress => "🔥 ネザー要塞"
  | BastionRemnant => "🏚️ バスティオン"
  | Igloo => "🧊 イグルー"
  | WitchHut => "🧙 魔女の家"
  | Shipwreck => "🚢 難破船"
  | BuriedTreasure => "💰 埋蔵金"

/-- Table `StructureType::spacing` from src/structures.rs (chunk units). -/
def spacing : StructureType → ℤ
  | Village => 32
  | PillagerOutpost => 80
  | OceanMonument => 32
  | WoodlandMansion => 80
  | NetherFortress => 30
  | BastionRemnant => 30
  | Igloo => 32
  | WitchHut => 32
  | Shipwreck => 24
  | BuriedTreasure => 8

/-- Table `StructureType::separation` from src/structures.rs (chunk units). -/
def separation : StructureType → ℤ
  | Village => 8
  | PillagerOutpost => 40
  | OceanMonument => 5
  | WoodlandMansion => 20
  | NetherFortress => 4
  | BastionRemnant => 4
  | Igloo => 8
  | WitchHut => 8
  | Shipwreck => 4
  | BuriedTreasure => 4

/-- Table `StructureType::salt` from src/structures.rs. -/
def salt : StructureType → ℤ
  | Village => 10387312
  | PillagerOutpost => 165745296
  | OceanMonument => 10387313
  | WoodlandMansion => 10387319
  | NetherFortress => 30084232
  | BastionRemnant => 30084232
  | Igloo => 14357618
  | WitchHut => 14357620
  | Shipwreck => 165745295
  | BuriedTreasure => 16842397

end StructureType

/-- Function `get_structure_seed` from src/structures.rs: the world seed is mixed
with the region coordinates and the per-kind salt by a chain of wrapping
64-bit multiplications and additions. -/
def get_structure_seed (world_seed region_x region_z salt : ℤ) : ℤ :=
  wrap64 (wrap64 (wrap64 (world_seed + wrap64 (region_x * 341873128712)) +
    wrap64 (region_z * 132897987541)) + salt)

/-- Function `next_int` from src/structures.rs: one step of the linear-congruential
generator.  Returns the advanced state together with the drawn value.
The source advances `*seed` in place; here the new state is returned as the
first component.  `(*seed >> 17) as i32` is arithmetic shift (floor division
by `2^17`) followed by a truncating cast. -/
def next_int (seed bound : ℤ) : ℤ × ℤ :=
  let s := wrap64 (wrap64 (seed * 6364136223846793005) + 1442695040888963407)
  let bits := wrap32 (s.fdiv (2 ^ 17))
  (s, wrap32 ((bits.natAbs : ℤ) % bound))

/-- Loop body of `find_structures` in src/structures.rs, for one
`(region_x, region_z)` pair: derive the region seed, draw the two jitter
offsets (x first, then z), form the candidate chunk/block position with
wrapping 32-bit arithmetic, and keep the candidate only when its squared
distance to the center (computed in `i64` with wrapping on the final
addition) is at most `radius²`. -/
def structCell (seed cx cz radius : ℤ) (st : StructureType) (region_x region_z : ℤ) :
    List (String × ℤ × ℤ) :=
  let struct_seed := get_structure_seed seed region_x region_z st.salt
  let offset_range := st.spacing - st.separation
  let r1 := next_int struct_seed offset_range
  let r2 := next_int r1.1 offset_range
  let chunk_x := wrap32 (region_x * st.spacing + r1.2)
  let chunk_z := wrap32 (region_z * st.spacing + r2.2)
  let block_x := wrap32 (chunk_x * 16 + 8)
  let block_z := wrap32 (chunk_z * 16 + 8)
  let dist_sq := wrap64 ((wrap32 (block_x - cx)) ^ 2 + (wrap32 (block_z - cz)) ^ 2)
  if dist_sq ≤ radius ^ 2 then [(st.display_name, block_x, block_z)] else []

/-- Function `find_structures` from src/structures.rs.  The region bounds divide the
(wrapping) 32-bit values `center ± radius` by `spacing * 16` with Rust's
truncating division and widen the scan by one region on each side.
(`spacing * 16 ≤ 1280` and the division results are small, so those
operations never overflow and carry no `wrap32`.) -/
def find_structures (seed cx cz radius : ℤ) (st : StructureType) :
    List (String × ℤ × ℤ) :=
  let spacing_blocks := st.spacing * 16
  let min_rx := (wrap32 (cx - radius)).tdiv spacing_blocks - 1
  let max_rx := (wrap32 (cx + radius)).tdiv spacing_blocks + 1
  let min_rz := (wrap32 (cz - radius)).tdiv spacing_blocks - 1
  let max_rz := (wrap32 (cz + radius)).tdiv spacing_blocks + 1
  (intRange min_rx max_rx).flatMap fun region_x =>
    (intRange min_rz max_rz).flatMap fun region_z =>
      structCell seed cx cz radius st region_x region_z

/-- The three in-quadrant checkpoint offsets of `find_nether_structures`. -/
def netherCheckpoints : List ℤ := [100, 200, 300]

/-- The in-radius test `dist_sq <= radius.pow(2)` applied to the checkpoint
`(qx*480 + ox, qz*480 + oz)` inside `find_nether_structures`
(src/structures.rs), with the source's wrapping 32/64-bit arithmetic. -/
def netherInRadius (cx cz radius qx qz ox oz : ℤ) : Bool :=
  let block_x := wrap32 (qx * 480 + ox)
  let block_z := wrap32 (qz * 480 + oz)
  let dist_sq := wrap64 ((wrap32 (block_x - cx)) ^ 2 + (wrap32 (block_z - cz)) ^ 2)
  decide (dist_sq ≤ radius ^ 2)

/-- The single entry `find_nether_structures` can push for quadrant
`(qx, qz)`: the quadrant state is derived with the fixed shared salt
`30084232`, one bounded draw of 100 selects the kind
(`< 33` → fortress, otherwise bastion), and two further bounded draws of
280 (plus 100) give the final x and then z offsets from the quadrant
origin.  In the source the state is re-derived from scratch at every
checkpoint, so the entry does not depend on which checkpoint fired. -/
def netherEntry (seed qx qz : ℤ) : String × ℤ × ℤ :=
  let r0 := next_int (get_structure_seed seed qx qz 30084232) 100
  let name := if r0.2 < 33 then "🔥 ネザー要塞" else "🏚️ バスティオン"
  let r1 := next_int r0.1 280
  let final_x := wrap32 (qx * 480 + (r1.2 + 100))
  let r2 := next_int r1.1 280
  let final_z := wrap32 (qz * 480 + (r2.2 + 100))
  (name, final_x, final_z)

/-- The `already_added` deduplication scan of `find_nether_structures`:
is there an accumulated result whose truncated-division quadrant pair
`(x/480, z/480)` equals `(qx, qz)`? -/
def netherGuard (results : List (String × ℤ × ℤ)) (qx qz : ℤ) : Bool :=
  results.any fun e => e.2.1.tdiv 480 == qx && e.2.2.tdiv 480 == qz

/-- One pass of the `offset_x` loop of `find_nether_structures`: the inner
`offset_z` loop runs until the first checkpoint inside the radius (the
`break`), and at that checkpoint rolls the kind and — unless the
deduplication scan fires — pushes the quadrant's entry.  Because the drawn
entry does not depend on `offset_z`, the pass appends the entry exactly when
some checkpoint `(ox, oz)` is in radius and the guard is clear. -/
def netherRound (seed cx cz radius qx qz : ℤ) (results : List (String × ℤ × ℤ))
    (ox : ℤ) : List (String × ℤ × ℤ) :=
  if netherCheckpoints.any (fun oz => netherInRadius cx cz radius qx qz ox oz) then
    if netherGuard results qx qz then results
    else results ++ [netherEntry seed qx qz]
  else results

/-- Processing of one quadrant by `find_nether_structures`: the three
`offset_x` passes in order. -/
def netherQuadrant (seed cx cz radius : ℤ) (results : List (String × ℤ × ℤ))
    (qx qz : ℤ) : List (String × ℤ × ℤ) :=
  netherCheckpoints.foldl (netherRound seed cx cz radius qx qz) results

/-- Function `find_nether_structures` from src/structures.rs: scan the quadrant grid
(480-block cells, one extra on each side) accumulating results. -/
def find_nether_structures (seed cx cz radius : ℤ) : List (String × ℤ × ℤ) :=
  let min_qx := (wrap32 (cx - radius)).tdiv 480 - 1
  let max_qx := (wrap32 (cx + radius)).tdiv 480 + 1
  let min_qz := (wrap32 (cz - radius)).tdiv 480 - 1
  let max_qz := (wrap32 (cz + radius)).tdiv 480 + 1
  (intRange min_qx max_qx).foldl
    (fun acc qx =>
      (intRange min_qz max_qz).foldl
        (fun acc2 qz => netherQuadrant seed cx cz radius acc2 qx qz) acc)
    []

/-- Rust enum `BiomeType` from src/algorithms/biome.rs. -/
inductive BiomeType where
  | Plains
  | Forest
  | Jungle
  | Desert
  | Mesa
  | Mushroom
  | IceSpikes
  | Swamp
  | Savanna
  | Taiga
  | SnowyTaiga
  | Ocean
  | DeepOcean
  | Beach
  | River
  | Mountain
  | Unknown
deriving DecidableEq, Repr

namespace BiomeType

/-- Function `BiomeType::from_str` from src/algorithms/biome.rs (case-insensitive,
with the documented aliases).  Rust's `to_lowercase` is embedded as a
per-character lowercase map (the same function Lean's `String.toLower`
computes); the two agree on every string made of ASCII characters, which
covers all the patterns matched here. -/
def from_str (s : String) : Option BiomeType :=
  match String.mk (s.data.map Char.toLower) with
  | "plains" => some Plains
  | "forest" => some Forest
  | "jungle" => some Jungle
  | "desert" => some Desert
  | "mesa" => some Mesa
  | "badlands" => some Mesa
  | "mushroom" => some Mushroom
  | "mushroom_fields" => some Mushroom
  | "ice_spikes" => some IceSpikes
  | "icespikes" => some IceSpikes
  | "swamp" => some Swamp
  | "savanna" => some Savanna
  | "taiga" => some Taiga
  | "snowy_taiga" => some SnowyTaiga
  | "ocean" => some Ocean
  | "deep_ocean" => some DeepOcean
  | "beach" => some Beach
  | "river" => some River
  | "mountain" => some Mountain
  | "extreme_hills" => some Mountain
  | _ => none

/-- Table `BiomeType::rarity` from src/algorithms/biome.rs.  The `f64` literals
`0.1`, …, `0.95`, `1.0` are embedded as the exact rationals they denote;
every comparison the program performs on them (against `0.8` and `0.5`)
has the same outcome for the `f64` values and for these rationals. -/
def rarity : BiomeType → ℚ
  | Plains => 1/10
  | Forest => 1/10
  | Jungle => 6/10
  | Desert => 3/10
  | Mesa => 8/10
  | Mushroom => 95/100
  | IceSpikes => 85/100
  | Swamp => 3/10
  | Savanna => 3/10
  | Taiga => 2/10
  | SnowyTaiga => 4/10
  | Ocean => 2/10
  | DeepOcean => 3/10
  | Beach => 2/10
  | River => 2/10
  | Mountain => 4/10
  | Unknown => 1

/-- Returns `true` for every `BiomeType` except the `Unknown` placeholder variant. -/
def isKnown : BiomeType → Bool
  | Unknown => false
  | _ => true

end BiomeType

/-- The decision tree of `get_biome_at` from src/algorithms/biome.rs.

The five `f64` noise values the source computes — `temp`, `humidity`,
`cont`, and the lazily evaluated rare-variant rolls `rare_chance`
(seed+200000), `jungle_chance` (seed+300000), `mesa_chance` (seed+400000)
and `mushroom_chance` (seed+500000) — are abstracted as rational
parameters, because `f64` noise composition is not exactly representable
in this embedding; the branching structure below is the exact structure of
the source, with each `f64` threshold literal embedded as the rational it
denotes (the comparison of a value against such a literal is modelled
exactly by the rational comparison). -/
def get_biome_at (temp humidity cont rare_chance jungle_chance mesa_chance
    mushroom_chance : ℚ) : BiomeType :=
  if cont < -2/10 then
    if cont < -5/10 then BiomeType.DeepOcean else BiomeType.Ocean
  else if cont < 0 then
    if humidity > 7/10 then BiomeType.River else BiomeType.Beach
  else if temp < 2/10 then
    if humidity < 3/10 then
      if rare_chance > 9/10 then BiomeType.IceSpikes else BiomeType.SnowyTaiga
    else BiomeType.Taiga
  else if temp < 6/10 then
    if humidity > 7/10 then BiomeType.Swamp
    else if humidity > 4/10 then BiomeType.Forest
    else if cont > 5/10 then BiomeType.Mountain
    else BiomeType.Plains
  else if humidity > 6/10 then
    if jungle_chance > 7/10 then BiomeType.Jungle else BiomeType.Savanna
  else if humidity < 3/10 then
    if mesa_chance > 85/100 then BiomeType.Mesa else BiomeType.Desert
  else if cont < 1/10 then
    if mushroom_chance > 95/100 then BiomeType.Mushroom else BiomeType.Savanna
  else BiomeType.Savanna

/-- The biome decision tree as §4.5 of the spec words it, branch for branch
and in the spec's stated order, over the same abstracted noise inputs.
Used to compare the source's tree against the spec's. -/
def specClassify (temp humidity cont rare_chance jungle_chance mesa_chance
    mushroom_chance : ℚ) : BiomeType :=
  if cont < -5/10 then BiomeType.DeepOcean
  else if cont < -2/10 then BiomeType.Ocean
  else if cont < 0 then
    if humidity > 7/10 then BiomeType.River else BiomeType.Beach
  else if temp < 2/10 then
    if humidity < 3/10 then
      if rare_chance > 9/10 then BiomeType.IceSpikes else BiomeType.SnowyTaiga
    else BiomeType.Taiga
  else if temp < 6/10 then
    if humidity > 7/10 then BiomeType.Swamp
    else if humidity > 4/10 then BiomeType.Forest
    else if cont > 5/10 then BiomeType.Mountain
    else BiomeType.Plains
  else
    if humidity > 6/10 then
      if jungle_chance > 7/10 then BiomeType.Jungle else BiomeType.Savanna
    else if humidity < 3/10 then
      if mesa_chance > 85/100 then BiomeType.Mesa else BiomeType.Desert
    else if cont < 1/10 ∧ mushroom_chance > 95/100 then BiomeType.Mushroom
    else BiomeType.Savanna

/-- The adaptive sampling step of `find_nearest_biome`
(src/algorithms/biome.rs): 64 blocks when the target's rarity exceeds 0.8,
128 when it exceeds 0.5, 256 otherwise. -/
def biome_step (target : BiomeType) : ℤ :=
  if target.rarity > 8/10 then 64
  else if target.rarity > 5/10 then 128
  else 256

/-- Quantity `samples_per_axis` of `find_nearest_biome`:
`(radius * 2 / step).max(1)` with wrapping 32-bit multiplication and
truncating division. -/
def samples_per_axis (radius : ℤ) (target : BiomeType) : ℤ :=
  max ((wrap32 (radius * 2)).tdiv (biome_step target)) 1

/-- The index pairs `(i, j)` scanned by the two nested sampling loops of
`find_nearest_biome`, in iteration order (`i` outer, `j` inner). -/
def sampleIndices (n : ℤ) : List (ℤ × ℤ) :=
  (intRange 0 (n - 1)).flatMap fun i =>
    (intRange 0 (n - 1)).map fun j => (i, j)

/-- The sample coordinate `(center - radius + i*step, center - radius + j*step)`
of `find_nearest_biome`, with wrapping 32-bit arithmetic. -/
def sampleCoord (cx cz radius : ℤ) (target : BiomeType) (ij : ℤ × ℤ) : ℤ × ℤ :=
  (wrap32 (cx - radius + ij.1 * biome_step target),
   wrap32 (cz - radius + ij.2 * biome_step target))

/-- The squared distance `find_nearest_biome` computes for a sample point
(`i64` arithmetic over the wrapped `i32` differences). -/
def sampleDistSq (cx cz radius : ℤ) (target : BiomeType) (ij : ℤ × ℤ) : ℤ :=
  let p := sampleCoord cx cz radius target ij
  wrap64 ((wrap32 (p.1 - cx)) ^ 2 + (wrap32 (p.2 - cz)) ^ 2)

/-- Loop body of `find_nearest_biome` for one sample index pair: skip the
sample when it falls outside the radius, otherwise classify it and keep it
as the new best when it matches the target and strictly improves on the
current best distance (the source compares the `f64` square roots of the
two squared distances; square root is strictly monotone, so the comparison
is embedded on the squared distances themselves). -/
def biomeSample (g : ℤ → ℤ → BiomeType) (cx cz radius : ℤ) (target : BiomeType)
    (best : Option (ℤ × ℤ × ℤ)) (ij : ℤ × ℤ) : Option (ℤ × ℤ × ℤ) :=
  let p := sampleCoord cx cz radius target ij
  let dist_sq := sampleDistSq cx cz radius target ij
  if dist_sq > radius ^ 2 then best
  else if g p.1 p.2 = target then
    match best with
    | some b => if b.2.2 ≤ dist_sq then some b else some (p.1, p.2, dist_sq)
    | none => some (p.1, p.2, dist_sq)
  else best

/-- Function `find_nearest_biome` from src/algorithms/biome.rs, parametrized by the
classifier `g` standing for `get_biome_at seed` (whose `f64` noise fields
cannot be embedded exactly; every theorem below holds for an arbitrary
classifier, hence for the source's).  The third component of the result is
the squared distance; the source returns its `f64` square root. -/
def find_nearest_biome (g : ℤ → ℤ → BiomeType) (cx cz radius : ℤ)
    (target_biome : String) : Option (ℤ × ℤ × ℤ) :=
  match BiomeType.from_str target_biome with
  | none => none
  | some target =>
      (sampleIndices (samples_per_axis radius target)).foldl
        (biomeSample g cx cz radius target) none

/-- Spec §4.3's structure-placement pipeline, written from the spec's words
with exact (non-wrapping) coordinate arithmetic: enumerate every region of
the bounding square `[cx-radius, cx+radius] × [cz-radius, cz+radius]`
(regions of geometric size `spacing*16` blocks, so the square's region
span is given by floor division) expanded by one region on each side;
derive one candidate per region through the RPRNG of §4.2 (offset x then
offset z, each bounded by `spacing - separation`); candidate block
position `= chunk*16 + 8`; keep candidates whose exact squared Euclidean
distance to the center is at most `radius²`. -/
def specStructCell (seed cx cz radius : ℤ) (st : StructureType)
    (region_x region_z : ℤ) : List (String × ℤ × ℤ) :=
  let struct_seed := get_structure_seed seed region_x region_z st.salt
  let offset_range := st.spacing - st.separation
  let r1 := next_int struct_seed offset_range
  let r2 := next_int r1.1 offset_range
  let block_x := (region_x * st.spacing + r1.2) * 16 + 8
  let block_z := (region_z * st.spacing + r2.2) * 16 + 8
  if (block_x - cx) ^ 2 + (block_z - cz) ^ 2 ≤ radius ^ 2 then
    [(st.display_name, block_x, block_z)]
  else []

/-- Spec §4.3's enumeration: regions of the bounding square (floor
division by the region size), one extra region on each side; see
`specStructCell` for the per-region candidate. -/
def specFindStructures (seed cx cz radius : ℤ) (st : StructureType) :
    List (String × ℤ × ℤ) :=
  let spacing_blocks := st.spacing * 16
  let lo_x := (cx - radius).fdiv spacing_blocks - 1
  let hi_x := (cx + radius).fdiv spacing_blocks + 1
  let lo_z := (cz - radius).fdiv spacing_blocks - 1
  let hi_z := (cz + radius).fdiv spacing_blocks + 1
  (intRange lo_x hi_x).flatMap fun region_x =>
    (intRange lo_z hi_z).flatMap fun region_z =>
      specStructCell seed cx cz radius st region_x region_z

/-- The truncated-division quadrant pair `(x/480, z/480)` of a result entry,
as computed by the deduplication scan of `find_nether_structures`. -/
def quadrantPair (e : String × ℤ × ℤ) : ℤ × ℤ :=
  (e.2.1.tdiv 480, e.2.2.tdiv 480)

/-- Both coordinates of a result entry are non-negative. -/
def nonnegCoords (e : String × ℤ × ℤ) : Prop :=
  0 ≤ e.2.1 ∧ 0 ≤ e.2.2

instance (e : String × ℤ × ℤ) : Decidable (nonnegCoords e) := by
  unfold nonnegCoords; infer_instance

/-- A sample index pair is a hit for `find_nearest_biome`: the sample lies
inside the radius (by the computed squared distance) and the classifier
labels it with the target. -/
def biomeMatch (g : ℤ → ℤ → BiomeType) (cx cz radius : ℤ) (target : BiomeType)
    (ij : ℤ × ℤ) : Prop :=
  sampleDistSq cx cz radius target ij ≤ radius ^ 2 ∧
    g (sampleCoord cx cz radius target ij).1 (sampleCoord cx cz radius target ij).2 = target

/-- Quadrant `(qx, qz)` has a checkpoint inside the query radius (so the
checkpoint scan of `find_nether_structures` fires for it). -/
def netherReached (cx cz radius qx qz : ℤ) : Prop :=
  ∃ ox ∈ netherCheckpoints, ∃ oz ∈ netherCheckpoints,
    netherInRadius cx cz radius qx qz ox oz = true

/-- Version of `structCell` with the two drawn jitter offsets abstracted: the
wrapping-arithmetic candidate/filter computation on plain integer inputs. -/
def structCellG (name : String) (cx cz radius spacing ox oz rx rz : ℤ) :
    List (String × ℤ × ℤ) :=
  let block_x := wrap32 (wrap32 (rx * spacing + ox) * 16 + 8)
  let block_z := wrap32 (wrap32 (rz * spacing + oz) * 16 + 8)
  let dist_sq := wrap64 ((wrap32 (block_x - cx)) ^ 2 + (wrap32 (block_z - cz)) ^ 2)
  if dist_sq ≤ radius ^ 2 then [(name, block_x, block_z)] else []

/-- Version of `specStructCell` with the two drawn jitter offsets abstracted: the
exact-arithmetic candidate/filter computation. -/
def specStructCellG (name : String) (cx cz radius spacing ox oz rx rz : ℤ) :
    List (String × ℤ × ℤ) :=
  let block_x := (rx * spacing + ox) * 16 + 8
  let block_z := (rz * spacing + oz) * 16 + 8
  if (block_x - cx) ^ 2 + (block_z - cz) ^ 2 ≤ radius ^ 2 then
    [(name, block_x, block_z)] else []

/-! Section: Arithmetic infrastructure: wrap-around and truncating division -/

theorem wrap64_lb (n : ℤ) : -2 ^ 63 ≤ wrap64 n := by
  unfold wrap64
  have := Int.emod_nonneg (n + 2 ^ 63) (show ((2:ℤ) ^ 64) ≠ 0 by norm_num)
  omega

theorem wrap64_ub (n : ℤ) : wrap64 n < 2 ^ 63 := by
  unfold wrap64
  have := Int.emod_lt_of_pos (n + 2 ^ 63) (show (0:ℤ) < 2 ^ 64 by norm_num)
  have h : (2 : ℤ) ^ 64 = 2 ^ 63 * 2 := by norm_num
  omega

theorem wrap64_eq_self {n : ℤ} (h1 : -2 ^ 63 ≤ n) (h2 : n < 2 ^ 63) :
    wrap64 n = n := by
  unfold wrap64
  have h : (2 : ℤ) ^ 64 = 2 ^ 63 * 2 := by norm_num
  rw [Int.emod_eq_of_lt (by omega) (by omega)]
  omega

theorem wrap64_modEq (n : ℤ) : wrap64 n ≡ n [ZMOD 2 ^ 64] := by
  unfold wrap64 Int.ModEq
  omega

theorem wrap64_congr {a b : ℤ} (h : a ≡ b [ZMOD 2 ^ 64]) :
    wrap64 a = wrap64 b := by
  unfold wrap64
  have h2 : (a + 2 ^ 63) % 2 ^ 64 = (b + 2 ^ 63) % 2 ^ 64 := Int.ModEq.add_right _ h
  rw [h2]

theorem wrap32_lb (n : ℤ) : -2 ^ 31 ≤ wrap32 n := by
  unfold wrap32
  have := Int.emod_nonneg (n + 2 ^ 31) (show ((2:ℤ) ^ 32) ≠ 0 by norm_num)
  omega

theorem wrap32_ub (n : ℤ) : wrap32 n < 2 ^ 31 := by
  unfold wrap32
  have := Int.emod_lt_of_pos (n + 2 ^ 31) (show (0:ℤ) < 2 ^ 32 by norm_num)
  have h : (2 : ℤ) ^ 32 = 2 ^ 31 * 2 := by norm_num
  omega

theorem wrap32_eq_self {n : ℤ} (h1 : -2 ^ 31 ≤ n) (h2 : n < 2 ^ 31) :
    wrap32 n = n := by
  unfold wrap32
  have h : (2 : ℤ) ^ 32 = 2 ^ 31 * 2 := by norm_num
  rw [Int.emod_eq_of_lt (by omega) (by omega)]
  omega

theorem wrap32_modEq (n : ℤ) : wrap32 n ≡ n [ZMOD 2 ^ 32] := by
  unfold wrap32 Int.ModEq
  omega

theorem wrap32_congr {a b : ℤ} (h : a ≡ b [ZMOD 2 ^ 32]) :
    wrap32 a = wrap32 b := by
  unfold wrap32
  have h2 : (a + 2 ^ 31) % 2 ^ 32 = (b + 2 ^ 31) % 2 ^ 32 := Int.ModEq.add_right _ h
  rw [h2]

theorem wrap32_add_left (a b : ℤ) : wrap32 (wrap32 a + b) = wrap32 (a + b) :=
  wrap32_congr ((wrap32_modEq a).add_right b)

theorem wrap32_sub_left (a b : ℤ) : wrap32 (wrap32 a - b) = wrap32 (a - b) :=
  wrap32_congr ((wrap32_modEq a).sub_right b)

/-- The region-seed chain of wrapping additions collapses to a single wrap
of the exact sum. -/
theorem get_structure_seed_eq (ws rx rz salt : ℤ) :
    get_structure_seed ws rx rz salt =
      wrap64 (ws + rx * 341873128712 + rz * 132897987541 + salt) := by
  unfold get_structure_seed
  apply wrap64_congr
  have h1 : wrap64 (ws + wrap64 (rx * 341873128712)) ≡
      ws + rx * 341873128712 [ZMOD 2 ^ 64] :=
    (wrap64_modEq _).trans ((Int.ModEq.refl ws).add (wrap64_modEq _))
  have h2 : wrap64 (wrap64 (ws + wrap64 (rx * 341873128712)) +
      wrap64 (rz * 132897987541)) ≡
      ws + rx * 341873128712 + rz * 132897987541 [ZMOD 2 ^ 64] :=
    (wrap64_modEq _).trans (h1.add (wrap64_modEq _))
  exact h2.add_right salt

/-- The LCG state advance collapses to a single wrap of the exact affine
step. -/
theorem next_int_fst (state bound : ℤ) :
    (next_int state bound).1 =
      wrap64 (state * 6364136223846793005 + 1442695040888963407) := by
  unfold next_int
  exact wrap64_congr ((wrap64_modEq _).add_right _)

/-- The value drawn by `next_int` lies in `[0, bound)` whenever
`1 ≤ bound ≤ 2^31` (every bound the program uses). -/
theorem next_int_val_bounds {bound : ℤ} (state : ℤ) (h1 : 1 ≤ bound)
    (h2 : bound ≤ 2 ^ 31) :
    0 ≤ (next_int state bound).2 ∧ (next_int state bound).2 < bound := by
  unfold next_int
  simp only
  set bits := wrap32 ((wrap64 (wrap64 (state * 6364136223846793005) +
    1442695040888963407)).fdiv (2 ^ 17)) with hbits
  have hnn : (0 : ℤ) ≤ (bits.natAbs : ℤ) % bound :=
    Int.emod_nonneg _ (by omega)
  have hlt : (bits.natAbs : ℤ) % bound < bound :=
    Int.emod_lt_of_pos _ (by omega)
  rw [wrap32_eq_self (by omega) (by omega)]
  exact ⟨hnn, hlt⟩

/-- The drawn value, written as the source computes it. -/
theorem next_int_val {bound : ℤ} (state : ℤ) (h1 : 1 ≤ bound)
    (h2 : bound ≤ 2 ^ 31) :
    (next_int state bound).2 =
      ((wrap32 ((next_int state bound).1.fdiv (2 ^ 17))).natAbs : ℤ) % bound := by
  unfold next_int
  simp only
  apply wrap32_eq_self
  · have := Int.emod_nonneg ((wrap32 ((wrap64 (wrap64 (state * 6364136223846793005) +
      1442695040888963407)).fdiv (2 ^ 17))).natAbs : ℤ) (show bound ≠ 0 by omega)
    omega
  · have := Int.emod_lt_of_pos ((wrap32 ((wrap64 (wrap64 (state * 6364136223846793005) +
      1442695040888963407)).fdiv (2 ^ 17))).natAbs : ℤ) (show (0:ℤ) < bound by omega)
    omega

/-- Truncating remainder lies strictly between `-b` and `b` for positive `b`. -/
theorem tmod_bounds (a : ℤ) {b : ℤ} (hb : 0 < b) :
    -b < a.tmod b ∧ a.tmod b < b := by
  rcases le_or_lt 0 a with ha | ha
  · have h1 := Int.tmod_nonneg b ha
    have h2 := Int.tmod_lt_of_pos a hb
    exact ⟨by omega, h2⟩
  · have hneg : a.tmod b = -((-a).tmod b) := by
      rw [Int.tmod_def, Int.tmod_def, Int.neg_tdiv]
      ring
    have h1 := Int.tmod_nonneg b (by omega : (0 : ℤ) ≤ -a)
    have h2 := Int.tmod_lt_of_pos (-a) hb
    omega

/-- Rust's truncating division, sandwiched: `b * (a / b)` is within `b - 1`
of `a` on either side. -/
theorem tdiv_sandwich (a : ℤ) {b : ℤ} (hb : 0 < b) :
    a - b + 1 ≤ b * (a.tdiv b) ∧ b * (a.tdiv b) ≤ a + b - 1 := by
  have h := Int.tdiv_add_tmod a b
  have h2 := tmod_bounds a hb
  omega

/-- Floor division, sandwiched. -/
theorem fdiv_sandwich (a : ℤ) {b : ℤ} (hb : 0 < b) :
    b * (a.fdiv b) ≤ a ∧ a ≤ b * (a.fdiv b) + b - 1 := by
  have h := Int.fdiv_add_fmod a b
  have h1 := Int.fmod_nonneg' a hb
  have h2 := Int.fmod_lt_of_pos a hb
  omega

/-- Truncating division is floor division or one above it. -/
theorem fdiv_le_tdiv (a : ℤ) {b : ℤ} (hb : 0 < b) :
    a.fdiv b ≤ a.tdiv b ∧ a.tdiv b ≤ a.fdiv b + 1 := by
  have h1 := tdiv_sandwich a hb
  have h2 := fdiv_sandwich a hb
  constructor
  · nlinarith [h1.1, h2.2]
  · nlinarith [h1.2, h2.1]

/-- From `a² ≤ r²` with `r ≥ 0`, the two-sided bound on `a`. -/
theorem abs_le_of_sq_le_sq_int {a r : ℤ} (h : a ^ 2 ≤ r ^ 2) (hr : 0 ≤ r) :
    -r ≤ a ∧ a ≤ r := by
  constructor <;> nlinarith [sq_nonneg (a - r), sq_nonneg (a + r)]

/-! Section: intRange infrastructure -/

theorem intRange_eq_nil {lo hi : ℤ} (h : hi < lo) : intRange lo hi = [] := by
  unfold intRange
  have : (hi + 1 - lo).toNat = 0 := by omega
  simp [this]

theorem intRange_eq_cons {lo hi : ℤ} (h : lo ≤ hi) :
    intRange lo hi = lo :: intRange (lo + 1) hi := by
  unfold intRange
  have h1 : (hi + 1 - lo).toNat = (hi + 1 - (lo + 1)).toNat + 1 := by omega
  rw [h1, List.range_succ_eq_map, List.map_cons, List.map_map]
  congr 1
  · norm_num
  · apply List.map_congr_left
    intro a _
    simp only [Function.comp_apply, Nat.succ_eq_add_one]
    push_cast
    ring

theorem mem_intRange {lo hi x : ℤ} :
    x ∈ intRange lo hi ↔ lo ≤ x ∧ x ≤ hi := by
  unfold intRange
  simp only [List.mem_map, List.mem_range]
  constructor
  · rintro ⟨i, hi2, rfl⟩
    omega
  · rintro ⟨h1, h2⟩
    exact ⟨(x - lo).toNat, by omega, by omega⟩

theorem intRange_length (lo hi : ℤ) :
    (intRange lo hi).length = (hi + 1 - lo).toNat := by
  simp [intRange]

/-- Dropping cells below `lo` that are empty does not change a flatMap
over an inclusive integer range. -/
theorem flatMap_intRange_trim_lo {α : Type} {lo' lo hi : ℤ}
    (f : ℤ → List α) (h : lo' ≤ lo)
    (hcell : ∀ x, lo' ≤ x → x < lo → f x = []) :
    (intRange lo' hi).flatMap f = (intRange lo hi).flatMap f := by
  have key : ∀ n : ℕ, ∀ a : ℤ, a = lo - n → lo' ≤ a →
      (∀ x, a ≤ x → x < lo → f x = []) →
      (intRange a hi).flatMap f = (intRange lo hi).flatMap f := by
    intro n
    induction n with
    | zero => intro a ha _ _; rw [ha]; norm_num
    | succ m ih =>
      intro a ha hlo hc
      rcases le_or_lt a hi with hle | hgt
      · rw [intRange_eq_cons hle, List.flatMap_cons, hc a le_rfl (by omega),
          List.nil_append]
        exact ih (a + 1) (by omega) (by omega) (fun x hx1 hx2 => hc x (by omega) hx2)
      · rw [intRange_eq_nil hgt, intRange_eq_nil (by omega)]
  exact key (lo - lo').toNat lo' (by omega) le_rfl hcell

theorem intRange_eq_snoc {lo hi : ℤ} (h : lo ≤ hi) :
    intRange lo hi = intRange lo (hi - 1) ++ [hi] := by
  unfold intRange
  have h1 : (hi + 1 - lo).toNat = (hi - 1 + 1 - lo).toNat + 1 := by omega
  rw [h1, List.range_succ, List.map_append, List.map_cons]
  simp only [List.map_nil]
  congr 2
  omega

/-- Dropping cells above `hi` that are empty does not change a flatMap
over an inclusive integer range. -/
theorem flatMap_intRange_trim_hi {α : Type} {lo hi hi' : ℤ}
    (f : ℤ → List α) (h : hi ≤ hi')
    (hcell : ∀ x, hi < x → x ≤ hi' → f x = []) :
    (intRange lo hi').flatMap f = (intRange lo hi).flatMap f := by
  have key : ∀ n : ℕ, ∀ b : ℤ, b = hi + n → hi ≤ b →
      (∀ x, hi < x → x ≤ b → f x = []) →
      (intRange lo b).flatMap f = (intRange lo hi).flatMap f := by
    intro n
    induction n with
    | zero => intro b hb _ _; rw [hb]; norm_num
    | succ m ih =>
      intro b hb hhi hc
      rcases le_or_lt lo b with hle | hgt
      · rw [intRange_eq_snoc hle, List.flatMap_append]
        simp only [List.flatMap_cons, List.flatMap_nil, List.append_nil]
        rw [hc b (by omega) le_rfl, List.append_nil]
        exact ih (b - 1) (by omega) (by omega) (fun x hx1 hx2 => hc x hx1 (by omega))
      · rw [intRange_eq_nil hgt, intRange_eq_nil (by omega)]
  exact key (hi' - hi).toNat hi' (by omega) h hcell

/-! Section: Helper characterizations -/

theorem biome_step_pos (target : BiomeType) : 0 < biome_step target := by
  unfold biome_step
  split_ifs <;> norm_num

theorem sampleIndices_length (n : ℤ) :
    (sampleIndices n).length = n.toNat * n.toNat := by
  unfold sampleIndices
  rw [List.length_flatMap]
  have h : n - 1 + 1 - 0 = n := by ring
  simp only [Function.comp_def, List.length_map]
  rw [List.map_const', List.sum_replicate, smul_eq_mul, intRange_length, h]

/-- Every result of the spec-side placement pipeline satisfies exact radius
containment (the pipeline filters on the exact squared distance). -/
theorem specFindStructures_containment (seed cx cz radius : ℤ)
    (st : StructureType) :
    ∀ e ∈ specFindStructures seed cx cz radius st,
      (e.2.1 - cx) ^ 2 + (e.2.2 - cz) ^ 2 ≤ radius ^ 2 := by
  intro e he
  unfold specFindStructures at he
  simp only [List.mem_flatMap] at he
  obtain ⟨rx, -, rz, -, hcell⟩ := he
  simp only [specStructCell] at hcell
  split_ifs at hcell with hd
  · simp only [List.mem_singleton] at hcell
    subst hcell
    exact hd
  · simp at hcell

/-! Section: Claim C4: RPRNG contract -/

/-- C4.  The region seed equals
`worldSeed + regionX*341873128712 + regionZ*132897987541 + salt` under
64-bit wrapping; each bounded draw advances the state by the fixed wrapping
LCG step, extracts bits 17..48 of the new state (arithmetic shift by 17 and
truncation to `i32`), takes the absolute value, reduces it modulo `bound`,
and yields a value in `[0, bound)` for every bound the program can pass
(`1 ≤ bound ≤ 2^31`). -/
theorem c4_rprng_contract (world_seed region_x region_z salt state bound : ℤ)
    (h1 : 1 ≤ bound) (h2 : bound ≤ 2 ^ 31) :
    get_structure_seed world_seed region_x region_z salt =
      wrap64 (world_seed + region_x * 341873128712 +
        region_z * 132897987541 + salt) ∧
    (next_int state bound).1 =
      wrap64 (state * 6364136223846793005 + 1442695040888963407) ∧
    (next_int state bound).2 =
      ((wrap32 ((next_int state bound).1.fdiv (2 ^ 17))).natAbs : ℤ) % bound ∧
    0 ≤ (next_int state bound).2 ∧ (next_int state bound).2 < bound :=
  ⟨get_structure_seed_eq world_seed region_x region_z salt,
   next_int_fst state bound,
   next_int_val state h1 h2,
   (next_int_val_bounds state h1 h2).1,
   (next_int_val_bounds state h1 h2).2⟩

/-- Witness for C4 at a concrete state and bound. -/
theorem c4_rprng_contract_witness :
    (1 : ℤ) ≤ 24 ∧ (24 : ℤ) ≤ 2 ^ 31 ∧
      0 ≤ (next_int 12345 24).2 ∧ (next_int 12345 24).2 < 24 :=
  ⟨by norm_num, by norm_num,
   (c4_rprng_contract 0 0 0 0 12345 24 (by norm_num) (by norm_num)).2.2.2.1,
   (c4_rprng_contract 0 0 0 0 12345 24 (by norm_num) (by norm_num)).2.2.2.2⟩

/-! Section: Claim C6: biome decision tree -/

set_option maxHeartbeats 2000000 in
/-- C6.  For every combination of noise-field values, the decision tree of
`get_biome_at` returns exactly the label of the spec's §4.5 tree, evaluated
in the stated order with the stated strict comparisons and thresholds. -/
theorem c6_biome_tree (temp humidity cont rare jungle mesa mushroom : ℚ) :
    get_biome_at temp humidity cont rare jungle mesa mushroom =
      specClassify temp humidity cont rare jungle mesa mushroom := by
  unfold get_biome_at specClassify
  split_ifs <;> first | rfl | (exfalso; linarith) | tauto

/-! Section: Claim C9: configuration safety -/

/-- C9.  Every structure kind in the static table has
`separation < spacing`, so the jitter bound `spacing - separation` that
`find_structures` passes to `next_int` is at least 1 on every path and the
`bound ≤ 0` error condition of the bounded draw is unreachable. -/
theorem c9_config_safe (st : StructureType) :
    st.separation < st.spacing ∧ 1 ≤ st.spacing - st.separation := by
  cases st <;> decide

/-! Section: Claim C10: Unknown is unreachable -/

/-- C10.  The classifier decision tree never returns `BiomeType.Unknown`
(for any noise values), and `from_str` never parses any string to
`Unknown`. -/
theorem c10_unknown_unreachable :
    (∀ temp humidity cont rare jungle mesa mushroom : ℚ,
      (get_biome_at temp humidity cont rare jungle mesa mushroom).isKnown = true) ∧
    (∀ s : String, (BiomeType.from_str s).all BiomeType.isKnown = true) := by
  constructor
  · intro t h c r j m mu
    unfold get_biome_at
    split_ifs <;> rfl
  · intro s
    unfold BiomeType.from_str
    split <;> rfl

/-! Section: Claim C7: nearest-biome sampling grid -/

/-- C7 counterexample.  At radius 1000 with the recognized target "plains"
(rarity 0.1, step 256) the program evaluates `(radius*2/step).max(1) = 7`
sample points per axis, not the claimed `max(⌈2*radius/step⌉, 1) = 8`
(the ceiling is written `(2*radius + step - 1)/step`, valid here since
`2*radius ≥ 0`). -/
theorem c7_counterexample :
    BiomeType.from_str "plains" = some BiomeType.Plains ∧
    samples_per_axis 1000 BiomeType.Plains = 7 ∧
    max ((2 * 1000 + biome_step BiomeType.Plains - 1).fdiv
      (biome_step BiomeType.Plains)) 1 = 8 := by
  have h1 : biome_step BiomeType.Plains = 256 := by
    norm_num [biome_step, BiomeType.rarity]
  refine ⟨by decide, ?_, ?_⟩
  · unfold samples_per_axis
    rw [h1, show wrap32 (1000 * 2) = 2000 from wrap32_eq_self (by norm_num) (by norm_num),
      show (2000 : ℤ).tdiv 256 = 7 from by decide]
    exact max_eq_left (by norm_num)
  · rw [h1, show ((2 : ℤ) * 1000 + 256 - 1) = 2255 from by norm_num,
      show (2255 : ℤ).fdiv 256 = 8 from by decide]
    exact max_eq_left (by norm_num)

/-- C7 (amended).  The step size is selected from the target's rarity
exactly as claimed (64 iff rarity > 0.8, 128 iff 0.5 < rarity ≤ 0.8,
256 iff rarity ≤ 0.5), and for a non-negative radius small enough that
`radius * 2` does not overflow, the number of samples per axis equals
`max(⌊2*radius/step⌋, 1)` — the floor, not the ceiling — and the total
number of evaluated sample points is its square. -/
theorem c7_sampling_grid (radius : ℤ) (target : BiomeType)
    (h0 : 0 ≤ radius) (h1 : radius ≤ 2 ^ 30 - 1) :
    (biome_step target = 64 ↔ 8/10 < target.rarity) ∧
    (biome_step target = 128 ↔ (5/10 < target.rarity ∧ target.rarity ≤ 8/10)) ∧
    (biome_step target = 256 ↔ target.rarity ≤ 5/10) ∧
    samples_per_axis radius target = max ((2 * radius).fdiv (biome_step target)) 1 ∧
    (sampleIndices (samples_per_axis radius target)).length =
      ((samples_per_axis radius target).toNat) ^ 2 := by
  have hstep : samples_per_axis radius target =
      max ((2 * radius).fdiv (biome_step target)) 1 := by
    unfold samples_per_axis
    rw [wrap32_eq_self (by omega) (by omega)]
    rw [Int.fdiv_eq_tdiv (by omega) (le_of_lt (biome_step_pos target))]
    rw [show radius * 2 = 2 * radius from by ring]
  refine ⟨?_, ?_, ?_, hstep, ?_⟩
  · cases target <;> simp [biome_step, BiomeType.rarity] <;> norm_num
  · cases target <;> simp [biome_step, BiomeType.rarity] <;> norm_num
  · cases target <;> simp [biome_step, BiomeType.rarity] <;> norm_num
  · rw [sampleIndices_length, pow_two]

/-- Witness for C7's amended theorem at radius 1000 and target Plains. -/
theorem c7_sampling_grid_witness :
    (0 : ℤ) ≤ 1000 ∧ (1000 : ℤ) ≤ 2 ^ 30 - 1 ∧
      samples_per_axis 1000 BiomeType.Plains =
        max (((2 : ℤ) * 1000).fdiv (biome_step BiomeType.Plains)) 1 :=
  ⟨by norm_num, by norm_num,
   (c7_sampling_grid 1000 BiomeType.Plains (by norm_num) (by norm_num)).2.2.2.1⟩

/-! Section: Claim C1: radius containment (code bug) -/

set_option maxRecDepth 100000 in
/-- C1.  Evaluating the code at the failing input: at seed 0, center
`(0, 0)`, radius 600, `find_nether_structures` returns an entry at
`(719, 281)` whose exact squared distance to the center, `595922`, exceeds
`radius² = 360000` — the emitted position is never re-checked against the
radius (only the checkpoint was), contradicting the claimed containment
invariant. -/
theorem c1_nether_escapes_radius :
    ("🔥 ネザー要塞", (719 : ℤ), (281 : ℤ)) ∈ find_nether_structures 0 0 0 600 ∧
      ((719 : ℤ) - 0) ^ 2 + ((281 : ℤ) - 0) ^ 2 > 600 ^ 2 := by
  constructor <;> decide

/-! Section: Claim C2: quadrant exclusivity -/

set_option maxRecDepth 100000 in
/-- C2 counterexample.  At seed 0, center `(0, 0)`, radius 600 the
nether-search result list contains two entries with the same
`(x/480, z/480)` pair (in fact it contains literal duplicate entries,
produced by the per-`offset_x` re-pushes in negative quadrants, where the
truncated-division deduplication scan cannot match the emitting quadrant),
so the claimed pairwise quadrant exclusivity fails. -/
theorem c2_counterexample :
    ¬ List.Pairwise (fun a b : String × ℤ × ℤ => quadrantPair a ≠ quadrantPair b)
      (find_nether_structures 0 0 0 600) := by
  decide

/-! Section: Claim C5: nether quadrant selection -/

set_option maxRecDepth 100000 in
/-- C5 counterexample.  At seed 0, center `(0, 0)`, radius 600, quadrant
`(0, 0)`'s first checkpoint `(100, 100)` is inside the radius, yet no
feature is emitted for that quadrant: its entry (the only position the
algorithm could emit for it) is absent from the result, because entries
from the earlier negative quadrant `(-1, -1)` occupy the truncated pair
`(0, 0)` and the deduplication guard suppresses the emission.  The claim
that a reached quadrant always emits one of the two kinds is therefore
false as stated. -/
theorem c5_counterexample :
    netherInRadius 0 0 600 0 0 100 100 = true ∧
      netherEntry 0 0 0 ∉ find_nether_structures 0 0 0 600 := by
  constructor <;> decide

/-! Section: Claim C3: structure placement candidate derivation -/

set_option maxRecDepth 100000 in
/-- C3 counterexample.  At seed 722, center `(-504, -504)`, radius
`2^31 - 1` (a bounding square that overflows `i32`), `find_structures` for
Village returns the entry `(2147483144, 2147483144)`, which the spec's
§4.3 pipeline can never produce: its exact squared distance to the center
is `2^63 > radius²`, and every candidate of the spec pipeline is filtered
by exact distance.  Hence the code's enumeration is not the claimed
exact-arithmetic region enumeration of the bounding square. -/
theorem c3_counterexample :
    find_structures 722 (-504) (-504) 2147483647 StructureType.Village ≠
      specFindStructures 722 (-504) (-504) 2147483647 StructureType.Village := by
  intro heq
  have hmem : (StructureType.Village.display_name,
      (2147483144 : ℤ), (2147483144 : ℤ)) ∈
      find_structures 722 (-504) (-504) 2147483647 StructureType.Village := by
    decide
  rw [heq] at hmem
  have hcontain := specFindStructures_containment 722 (-504) (-504) 2147483647
    StructureType.Village _ hmem
  norm_num at hcontain

theorem netherGuard_append (acc : List (String × ℤ × ℤ)) (e : String × ℤ × ℤ)
    (qx qz : ℤ) :
    netherGuard (acc ++ [e]) qx qz =
      (netherGuard acc qx qz || (e.2.1.tdiv 480 == qx && e.2.2.tdiv 480 == qz)) := by
  simp [netherGuard, List.any_append]

theorem netherReached_iff (cx cz radius qx qz : ℤ) :
    netherReached cx cz radius qx qz ↔
      (netherCheckpoints.any (fun oz => netherInRadius cx cz radius qx qz 100 oz) = true ∨
       netherCheckpoints.any (fun oz => netherInRadius cx cz radius qx qz 200 oz) = true ∨
       netherCheckpoints.any (fun oz => netherInRadius cx cz radius qx qz 300 oz) = true) := by
  unfold netherReached
  constructor
  · rintro ⟨ox, hox, oz, hoz, h⟩
    simp only [netherCheckpoints, List.mem_cons, List.not_mem_nil, or_false] at hox
    rcases hox with rfl | rfl | rfl
    · exact Or.inl (List.any_eq_true.mpr ⟨oz, hoz, h⟩)
    · exact Or.inr (Or.inl (List.any_eq_true.mpr ⟨oz, hoz, h⟩))
    · exact Or.inr (Or.inr (List.any_eq_true.mpr ⟨oz, hoz, h⟩))
  · rintro (h | h | h) <;> obtain ⟨oz, hoz, hr⟩ := List.any_eq_true.mp h
    · exact ⟨100, by simp [netherCheckpoints], oz, hoz, hr⟩
    · exact ⟨200, by simp [netherCheckpoints], oz, hoz, hr⟩
    · exact ⟨300, by simp [netherCheckpoints], oz, hoz, hr⟩

/-- C5 (amended): characterization of one quadrant's processing. -/
theorem c5_quadrant_selection (seed cx cz radius : ℤ)
    (acc : List (String × ℤ × ℤ)) (qx qz : ℤ) :
    ∃ k : ℕ,
      netherQuadrant seed cx cz radius acc qx qz =
        acc ++ List.replicate k (netherEntry seed qx qz) ∧
      k ≤ 3 ∧
      (netherGuard acc qx qz = true → k = 0) ∧
      (netherGuard acc qx qz = false →
        ((1 ≤ k) ↔ netherReached cx cz radius qx qz)) ∧
      ((netherEntry seed qx qz).1 = "🔥 ネザー要塞" ∨
        (netherEntry seed qx qz).1 = "🏚️ バスティオン") ∧
      ((netherEntry seed qx qz).1 = "🔥 ネザー要塞" ↔
        (next_int (get_structure_seed seed qx qz 30084232) 100).2 < 33) ∧
      (netherEntry seed qx qz).2.1 =
        wrap32 (qx * 480 +
          ((next_int (next_int (get_structure_seed seed qx qz 30084232) 100).1
            280).2 + 100)) ∧
      (netherEntry seed qx qz).2.2 =
        wrap32 (qz * 480 +
          ((next_int (next_int (next_int (get_structure_seed seed qx qz 30084232)
            100).1 280).1 280).2 + 100)) := by
  have hname : (netherEntry seed qx qz).1 = "🔥 ネザー要塞" ∨
      (netherEntry seed qx qz).1 = "🏚️ バスティオン" := by
    simp only [netherEntry]
    split_ifs <;> simp
  have hkind : (netherEntry seed qx qz).1 = "🔥 ネザー要塞" ↔
      (next_int (get_structure_seed seed qx qz 30084232) 100).2 < 33 := by
    simp only [netherEntry]
    split_ifs with h <;> simp [h]
  have hfx : (netherEntry seed qx qz).2.1 =
      wrap32 (qx * 480 +
        ((next_int (next_int (get_structure_seed seed qx qz 30084232) 100).1
          280).2 + 100)) := by
    simp only [netherEntry]
  have hfz : (netherEntry seed qx qz).2.2 =
      wrap32 (qz * 480 +
        ((next_int (next_int (next_int (get_structure_seed seed qx qz 30084232)
          100).1 280).1 280).2 + 100)) := by
    simp only [netherEntry]
  have hq : netherQuadrant seed cx cz radius acc qx qz =
      netherRound seed cx cz radius qx qz
        (netherRound seed cx cz radius qx qz
          (netherRound seed cx cz radius qx qz acc 100) 200) 300 := by
    simp [netherQuadrant, netherCheckpoints]
  by_cases hg : netherGuard acc qx qz = true
  · refine ⟨0, ?_, by norm_num, fun _ => rfl, fun hgf => by simp [hgf] at hg,
      hname, hkind, hfx, hfz⟩
    have hr : ∀ l, netherGuard l qx qz = true →
        ∀ ox, netherRound seed cx cz radius qx qz l ox = l := by
      intro l hl ox
      unfold netherRound
      rw [hl]
      split <;> rfl
    rw [hq, hr _ hg, hr _ hg, hr _ hg, List.replicate_zero, List.append_nil]
  · rw [Bool.not_eq_true] at hg
    by_cases hsp : ((netherEntry seed qx qz).2.1.tdiv 480 == qx &&
        (netherEntry seed qx qz).2.2.tdiv 480 == qz) = true
    · have hg2 : netherGuard (acc ++ [netherEntry seed qx qz]) qx qz = true := by
        rw [netherGuard_append, hsp, Bool.or_true]
      cases h1 : netherCheckpoints.any
          (fun oz => netherInRadius cx cz radius qx qz 100 oz) <;>
        cases h2 : netherCheckpoints.any
          (fun oz => netherInRadius cx cz radius qx qz 200 oz) <;>
        cases h3 : netherCheckpoints.any
          (fun oz => netherInRadius cx cz radius qx qz 300 oz)
      · refine ⟨0, ?_, by norm_num, fun _ => rfl, ?_, hname, hkind, hfx, hfz⟩
        · rw [hq]; simp [netherRound, h1, h2, h3]
        · intro hgf
          rw [netherReached_iff]
          simp [h1, h2, h3]
      · refine ⟨1, ?_, by norm_num, fun h => absurd h (by simp [hg]), ?_,
          hname, hkind, hfx, hfz⟩
        · rw [hq]; simp [netherRound, h1, h2, h3, hg]
        · intro hgf
          rw [netherReached_iff]
          simp [h1, h2, h3]
      · refine ⟨1, ?_, by norm_num, fun h => absurd h (by simp [hg]), ?_,
          hname, hkind, hfx, hfz⟩
        · rw [hq]; simp [netherRound, h1, h2, h3, hg, hg2]
        · intro hgf
          rw [netherReached_iff]
          simp [h1, h2, h3]
      · refine ⟨1, ?_, by norm_num, fun h => absurd h (by simp [hg]), ?_,
          hname, hkind, hfx, hfz⟩
        · rw [hq]; simp [netherRound, h1, h2, h3, hg, hg2]
        · intro hgf
          rw [netherReached_iff]
          simp [h1, h2, h3]
      · refine ⟨1, ?_, by norm_num, fun h => absurd h (by simp [hg]), ?_,
          hname, hkind, hfx, hfz⟩
        · rw [hq]; simp [netherRound, h1, h2, h3, hg, hg2]
        · intro hgf
          rw [netherReached_iff]
          simp [h1, h2, h3]
      · refine ⟨1, ?_, by norm_num, fun h => absurd h (by simp [hg]), ?_,
          hname, hkind, hfx, hfz⟩
        · rw [hq]; simp [netherRound, h1, h2, h3, hg, hg2]
        · intro hgf
          rw [netherReached_iff]
          simp [h1, h2, h3]
      · refine ⟨1, ?_, by norm_num, fun h => absurd h (by simp [hg]), ?_,
          hname, hkind, hfx, hfz⟩
        · rw [hq]; simp [netherRound, h1, h2, h3, hg, hg2]
        · intro hgf
          rw [netherReached_iff]
          simp [h1, h2, h3]
      · refine ⟨1, ?_, by norm_num, fun h => absurd h (by simp [hg]), ?_,
          hname, hkind, hfx, hfz⟩
        · rw [hq]; simp [netherRound, h1, h2, h3, hg, hg2]
        · intro hgf
          rw [netherReached_iff]
          simp [h1, h2, h3]
    · rw [Bool.not_eq_true] at hsp
      have hg2 : netherGuard (acc ++ [netherEntry seed qx qz]) qx qz = false := by
        rw [netherGuard_append, hsp, Bool.or_false, hg]
      have hg3 : netherGuard (acc ++ [netherEntry seed qx qz,
          netherEntry seed qx qz]) qx qz = false := by
        unfold netherGuard at hg ⊢
        simp [List.any_append, hg, hsp]
      cases h1 : netherCheckpoints.any
          (fun oz => netherInRadius cx cz radius qx qz 100 oz) <;>
        cases h2 : netherCheckpoints.any
          (fun oz => netherInRadius cx cz radius qx qz 200 oz) <;>
        cases h3 : netherCheckpoints.any
          (fun oz => netherInRadius cx cz radius qx qz 300 oz)
      · refine ⟨0, ?_, by norm_num, fun _ => rfl, ?_, hname, hkind, hfx, hfz⟩
        · rw [hq]; simp [netherRound, h1, h2, h3]
        · intro hgf
          rw [netherReached_iff]
          simp [h1, h2, h3]
      · refine ⟨1, ?_, by norm_num, fun h => absurd h (by simp [hg]), ?_,
          hname, hkind, hfx, hfz⟩
        · rw [hq]; simp [netherRound, h1, h2, h3, hg]
        · intro hgf
          rw [netherReached_iff]
          simp [h1, h2, h3]
      · refine ⟨1, ?_, by norm_num, fun h => absurd h (by simp [hg]), ?_,
          hname, hkind, hfx, hfz⟩
        · rw [hq]; simp [netherRound, h1, h2, h3, hg]
        · intro hgf
          rw [netherReached_iff]
          simp [h1, h2, h3]
      · refine ⟨2, ?_, by norm_num, fun h => absurd h (by simp [hg]), ?_,
          hname, hkind, hfx, hfz⟩
        · rw [hq]; simp [netherRound, h1, h2, h3, hg, hg2]
        · intro hgf
          rw [netherReached_iff]
          simp [h1, h2, h3]
      · refine ⟨1, ?_, by norm_num, fun h => absurd h (by simp [hg]), ?_,
          hname, hkind, hfx, hfz⟩
        · rw [hq]; simp [netherRound, h1, h2, h3, hg]
        · intro hgf
          rw [netherReached_iff]
          simp [h1, h2, h3]
      · refine ⟨2, ?_, by norm_num, fun h => absurd h (by simp [hg]), ?_,
          hname, hkind, hfx, hfz⟩
        · rw [hq]; simp [netherRound, h1, h2, h3, hg, hg2]
        · intro hgf
          rw [netherReached_iff]
          simp [h1, h2, h3]
      · refine ⟨2, ?_, by norm_num, fun h => absurd h (by simp [hg]), ?_,
          hname, hkind, hfx, hfz⟩
        · rw [hq]; simp [netherRound, h1, h2, h3, hg, hg2]
        · intro hgf
          rw [netherReached_iff]
          simp [h1, h2, h3]
      · refine ⟨3, ?_, by norm_num, fun h => absurd h (by simp [hg]), ?_,
          hname, hkind, hfx, hfz⟩
        · rw [hq]; simp [netherRound, h1, h2, h3, hg, hg2, hg3]
        · intro hgf
          rw [netherReached_iff]
          simp [h1, h2, h3]

theorem netherGuard_eq_false_iff (l : List (String × ℤ × ℤ)) (qx qz : ℤ) :
    netherGuard l qx qz = false ↔ ∀ p ∈ l, quadrantPair p ≠ (qx, qz) := by
  unfold netherGuard quadrantPair
  rw [List.any_eq_false]
  simp only [Bool.and_eq_true, beq_iff_eq, ne_eq, Prod.mk.injEq, not_and]

/-- A `foldl` whose step preserves pairwiseness preserves pairwiseness. -/
theorem pairwise_foldl {α β : Type} (R : α → α → Prop)
    (f : List α → β → List α) (l : List β) :
    ∀ acc : List α,
      (∀ acc2 b, b ∈ l → List.Pairwise R acc2 → List.Pairwise R (f acc2 b)) →
      List.Pairwise R acc → List.Pairwise R (l.foldl f acc) := by
  induction l with
  | nil => intro acc _ h; exact h
  | cons b t ih =>
      intro acc hstep h
      rw [List.foldl_cons]
      exact ih (f acc b)
        (fun acc2 b2 hb2 => hstep acc2 b2 (List.mem_cons_of_mem b hb2))
        (hstep acc b (List.mem_cons_self b t) h)

/-- From an in-radius checkpoint, exact bounds on the checkpoint block
coordinates (the wrapping arithmetic is exact under the stated bounds). -/
theorem nether_checkpoint_band (cx cz radius qx qz ox oz : ℤ)
    (hr0 : 0 ≤ radius) (hrB : radius ≤ 2 ^ 31 - 2000)
    (hbx : cx - radius - 959 ≤ qx * 480 ∧ qx * 480 ≤ cx + radius + 959)
    (hbz : cz - radius - 959 ≤ qz * 480 ∧ qz * 480 ≤ cz + radius + 959)
    (hox : ox ∈ netherCheckpoints) (hoz : oz ∈ netherCheckpoints)
    (hin : netherInRadius cx cz radius qx qz ox oz = true) :
    cx - radius ≤ qx * 480 + ox ∧ qx * 480 + ox ≤ cx + radius ∧
      cz - radius ≤ qz * 480 + oz ∧ qz * 480 + oz ≤ cz + radius := by
  have hox' : ox = 100 ∨ ox = 200 ∨ ox = 300 := by
    simpa [netherCheckpoints] using hox
  have hoz' : oz = 100 ∨ oz = 200 ∨ oz = 300 := by
    simpa [netherCheckpoints] using hoz
  have hoxb : 100 ≤ ox ∧ ox ≤ 300 := by rcases hox' with rfl | rfl | rfl <;> norm_num
  have hozb : 100 ≤ oz ∧ oz ≤ 300 := by rcases hoz' with rfl | rfl | rfl <;> norm_num
  unfold netherInRadius at hin
  simp only [decide_eq_true_eq] at hin
  rw [wrap32_sub_left, wrap32_sub_left] at hin
  have hdx : wrap32 (qx * 480 + ox - cx) = qx * 480 + ox - cx := by
    apply wrap32_eq_self <;> omega
  have hdz : wrap32 (qz * 480 + oz - cz) = qz * 480 + oz - cz := by
    apply wrap32_eq_self <;> omega
  rw [hdx, hdz] at hin
  have hsq : (qx * 480 + ox - cx) ^ 2 + (qz * 480 + oz - cz) ^ 2 < 2 ^ 63 := by
    have b1 : (qx * 480 + ox - cx) ^ 2 ≤ (radius + 1259) ^ 2 := by
      have : |qx * 480 + ox - cx| ≤ radius + 1259 := by
        rw [abs_le]; omega
      calc (qx * 480 + ox - cx) ^ 2 = |qx * 480 + ox - cx| ^ 2 := (sq_abs _).symm
        _ ≤ (radius + 1259) ^ 2 := by
            apply pow_le_pow_left₀ (abs_nonneg _) this
    have b2 : (qz * 480 + oz - cz) ^ 2 ≤ (radius + 1259) ^ 2 := by
      have : |qz * 480 + oz - cz| ≤ radius + 1259 := by
        rw [abs_le]; omega
      calc (qz * 480 + oz - cz) ^ 2 = |qz * 480 + oz - cz| ^ 2 := (sq_abs _).symm
        _ ≤ (radius + 1259) ^ 2 := by
            apply pow_le_pow_left₀ (abs_nonneg _) this
    have hlt : (radius + 1259) ^ 2 < 2 ^ 62 := by
      have h1 : radius + 1259 < 2 ^ 31 := by omega
      have h2 : (0 : ℤ) ≤ radius + 1259 := by omega
      calc (radius + 1259) ^ 2 < (2 ^ 31) ^ 2 := by
            apply sq_lt_sq' (by omega) h1
        _ = 2 ^ 62 := by norm_num
    have : (2 : ℤ) ^ 63 = 2 ^ 62 + 2 ^ 62 := by norm_num
    omega
  rw [wrap64_eq_self (le_trans (by norm_num)
    (by positivity : (0 : ℤ) ≤ (qx * 480 + ox - cx) ^ 2 +
      (qz * 480 + oz - cz) ^ 2)) hsq] at hin
  have hx : (qx * 480 + ox - cx) ^ 2 ≤ radius ^ 2 := by
    linarith [sq_nonneg (qz * 480 + oz - cz)]
  have hz : (qz * 480 + oz - cz) ^ 2 ≤ radius ^ 2 := by
    linarith [sq_nonneg (qx * 480 + ox - cx)]
  have hx2 := abs_le_of_sq_le_sq_int hx hr0
  have hz2 := abs_le_of_sq_le_sq_int hz hr0
  omega

/-- The final entry coordinates are exact (no wrap) when the quadrant band
lies inside `i32`, and they stay inside the quadrant's `[100, 379]` offset
band. -/
theorem netherEntry_coords (seed qx qz : ℤ)
    (hx : -2 ^ 31 ≤ qx * 480 + 100 ∧ qx * 480 + 379 ≤ 2 ^ 31 - 1)
    (hz : -2 ^ 31 ≤ qz * 480 + 100 ∧ qz * 480 + 379 ≤ 2 ^ 31 - 1) :
    qx * 480 + 100 ≤ (netherEntry seed qx qz).2.1 ∧
      (netherEntry seed qx qz).2.1 ≤ qx * 480 + 379 ∧
      qz * 480 + 100 ≤ (netherEntry seed qx qz).2.2 ∧
      (netherEntry seed qx qz).2.2 ≤ qz * 480 + 379 := by
  have h280 : ((1 : ℤ) ≤ 280) := by norm_num
  have h280B : ((280 : ℤ) ≤ 2 ^ 31) := by norm_num
  obtain ⟨d1lo, d1hi⟩ := next_int_val_bounds
    (next_int (get_structure_seed seed qx qz 30084232) 100).1 h280 h280B
  obtain ⟨d2lo, d2hi⟩ := next_int_val_bounds
    (next_int (next_int (get_structure_seed seed qx qz 30084232) 100).1 280).1
    h280 h280B
  have hex : (netherEntry seed qx qz).2.1 =
      qx * 480 + ((next_int (next_int (get_structure_seed seed qx qz 30084232)
        100).1 280).2 + 100) := by
    simp only [netherEntry]
    apply wrap32_eq_self <;> omega
  have hez : (netherEntry seed qx qz).2.2 =
      qz * 480 + ((next_int (next_int (next_int (get_structure_seed seed qx qz
        30084232) 100).1 280).1 280).2 + 100) := by
    simp only [netherEntry]
    apply wrap32_eq_self <;> omega
  rw [hex, hez]
  omega

/-- One `offset_x` pass preserves pairwise quadrant-distinctness of the
non-negative entries, for quadrants inside the scanned ranges. -/
theorem netherRound_pairwise (seed cx cz radius qx qz ox : ℤ)
    (acc : List (String × ℤ × ℤ))
    (hr0 : 0 ≤ radius) (hrB : radius ≤ 2 ^ 31 - 2000)
    (hx1 : -2 ^ 31 + 1000 ≤ cx - radius) (hx2 : cx + radius ≤ 2 ^ 31 - 1000)
    (hz1 : -2 ^ 31 + 1000 ≤ cz - radius) (hz2 : cz + radius ≤ 2 ^ 31 - 1000)
    (hqx : (cx - radius).tdiv 480 - 1 ≤ qx ∧ qx ≤ (cx + radius).tdiv 480 + 1)
    (hqz : (cz - radius).tdiv 480 - 1 ≤ qz ∧ qz ≤ (cz + radius).tdiv 480 + 1)
    (hox : ox ∈ netherCheckpoints)
    (hp : List.Pairwise
      (fun a b => nonnegCoords a → nonnegCoords b → quadrantPair a ≠ quadrantPair b)
      acc) :
    List.Pairwise
      (fun a b => nonnegCoords a → nonnegCoords b → quadrantPair a ≠ quadrantPair b)
      (netherRound seed cx cz radius qx qz acc ox) := by
  unfold netherRound
  split
  case isFalse => exact hp
  case isTrue hflag =>
    split
    case isTrue => exact hp
    case isFalse hguard =>
      rw [List.pairwise_append]
      refine ⟨hp, List.pairwise_singleton _ _, ?_⟩
      intro a ha b hb hna hnb
      rw [List.mem_singleton] at hb
      subst hb
      have hguard' : ∀ p ∈ acc, quadrantPair p ≠ (qx, qz) :=
        (netherGuard_eq_false_iff acc qx qz).mp (Bool.not_eq_true _ ▸ hguard)
      suffices hpair : quadrantPair (netherEntry seed qx qz) = (qx, qz) by
        rw [hpair]
        exact hguard' a ha
      -- the checkpoint that fired gives exact band bounds
      obtain ⟨oz, hoz, hin⟩ := List.any_eq_true.mp hflag
      have hsx := tdiv_sandwich (cx - radius) (show (0:ℤ) < 480 by norm_num)
      have hsx2 := tdiv_sandwich (cx + radius) (show (0:ℤ) < 480 by norm_num)
      have hsz := tdiv_sandwich (cz - radius) (show (0:ℤ) < 480 by norm_num)
      have hsz2 := tdiv_sandwich (cz + radius) (show (0:ℤ) < 480 by norm_num)
      have hbx : cx - radius - 959 ≤ qx * 480 ∧ qx * 480 ≤ cx + radius + 959 := by
        constructor <;> nlinarith [hqx.1, hqx.2]
      have hbz : cz - radius - 959 ≤ qz * 480 ∧ qz * 480 ≤ cz + radius + 959 := by
        constructor <;> nlinarith [hqz.1, hqz.2]
      have hband := nether_checkpoint_band cx cz radius qx qz ox oz hr0 hrB
        hbx hbz hox hoz hin
      have hox' : 100 ≤ ox ∧ ox ≤ 300 := by
        have : ox = 100 ∨ ox = 200 ∨ ox = 300 := by
          simpa [netherCheckpoints] using hox
        rcases this with rfl | rfl | rfl <;> norm_num
      have hoz' : 100 ≤ oz ∧ oz ≤ 300 := by
        have : oz = 100 ∨ oz = 200 ∨ oz = 300 := by
          simpa [netherCheckpoints] using hoz
        rcases this with rfl | rfl | rfl <;> norm_num
      have hcoords := netherEntry_coords seed qx qz (by omega) (by omega)
      obtain ⟨hex1, hex2, hez1, hez2⟩ := hcoords
      obtain ⟨hnx, hnz⟩ := hnb
      have hqx0 : 0 ≤ qx := by omega
      have hqz0 : 0 ≤ qz := by omega
      unfold quadrantPair
      have htx : (netherEntry seed qx qz).2.1.tdiv 480 = qx := by
        rw [Int.tdiv_eq_ediv (by omega) (by norm_num)]
        have : (netherEntry seed qx qz).2.1 =
            ((netherEntry seed qx qz).2.1 - qx * 480) + qx * 480 := by ring
        rw [this, Int.add_mul_ediv_right _ _ (by norm_num : (480 : ℤ) ≠ 0),
          Int.ediv_eq_zero_of_lt (by omega) (by omega)]
        ring
      have htz : (netherEntry seed qx qz).2.2.tdiv 480 = qz := by
        rw [Int.tdiv_eq_ediv (by omega) (by norm_num)]
        have : (netherEntry seed qx qz).2.2 =
            ((netherEntry seed qx qz).2.2 - qz * 480) + qz * 480 := by ring
        rw [this, Int.add_mul_ediv_right _ _ (by norm_num : (480 : ℤ) ≠ 0),
          Int.ediv_eq_zero_of_lt (by omega) (by omega)]
        ring
      rw [htx, htz]

set_option maxHeartbeats 800000 in
/-- C2 (amended).  Under non-overflowing search bounds, no two distinct
results of `find_nether_structures` whose coordinates are both
non-negative share the same `(x/480, z/480)` quadrant pair.  (The
counterexample `c2_counterexample` shows the unrestricted claim is false
for negative coordinates, whose truncated-division pair does not identify
the emitting quadrant.) -/
theorem c2_quadrant_exclusive (seed cx cz radius : ℤ)
    (hr0 : 0 ≤ radius) (hrB : radius ≤ 2 ^ 31 - 2000)
    (hx1 : -2 ^ 31 + 1000 ≤ cx - radius) (hx2 : cx + radius ≤ 2 ^ 31 - 1000)
    (hz1 : -2 ^ 31 + 1000 ≤ cz - radius) (hz2 : cz + radius ≤ 2 ^ 31 - 1000) :
    List.Pairwise
      (fun a b => nonnegCoords a → nonnegCoords b → quadrantPair a ≠ quadrantPair b)
      (find_nether_structures seed cx cz radius) := by
  unfold find_nether_structures
  rw [wrap32_eq_self (by omega) (by omega), wrap32_eq_self (by omega) (by omega),
    wrap32_eq_self (by omega) (by omega), wrap32_eq_self (by omega) (by omega)]
  apply pairwise_foldl _ _ _ []
  · intro acc2 qx hqx hp2
    apply pairwise_foldl _ _ _ acc2
    · intro acc3 qz hqz hp3
      unfold netherQuadrant
      apply pairwise_foldl _ _ _ acc3
      · intro acc4 ox hox hp4
        exact netherRound_pairwise seed cx cz radius qx qz ox acc4 hr0 hrB
          hx1 hx2 hz1 hz2 (mem_intRange.mp hqx) (mem_intRange.mp hqz) hox hp4
      · exact hp3
    · exact hp2
  · exact List.Pairwise.nil

/-- One step of the `find_nearest_biome` fold preserves the accumulator
invariant: `none` iff no processed sample matched; `some` carries a
processed matching sample of minimal squared distance. -/
theorem biomeSample_step_inv (g : ℤ → ℤ → BiomeType) (cx cz radius : ℤ)
    (t : BiomeType) (L : List (ℤ × ℤ)) (ij : ℤ × ℤ)
    (best : Option (ℤ × ℤ × ℤ))
    (h1 : best = none ↔ ∀ p ∈ L, ¬ biomeMatch g cx cz radius t p)
    (h2 : ∀ x z d, best = some (x, z, d) →
      ∃ p ∈ L, sampleCoord cx cz radius t p = (x, z) ∧
        biomeMatch g cx cz radius t p ∧ d = sampleDistSq cx cz radius t p ∧
        ∀ q ∈ L, biomeMatch g cx cz radius t q →
          d ≤ sampleDistSq cx cz radius t q) :
    (biomeSample g cx cz radius t best ij = none ↔
      ∀ p ∈ L ++ [ij], ¬ biomeMatch g cx cz radius t p) ∧
    (∀ x z d, biomeSample g cx cz radius t best ij = some (x, z, d) →
      ∃ p ∈ L ++ [ij], sampleCoord cx cz radius t p = (x, z) ∧
        biomeMatch g cx cz radius t p ∧ d = sampleDistSq cx cz radius t p ∧
        ∀ q ∈ L ++ [ij], biomeMatch g cx cz radius t q →
          d ≤ sampleDistSq cx cz radius t q) := by
  have hmem : ∀ p : ℤ × ℤ, p ∈ L ++ [ij] ↔ p ∈ L ∨ p = ij := by
    intro p
    simp [List.mem_append]
  have unchanged : ¬ biomeMatch g cx cz radius t ij →
      (best = none ↔
        ∀ p ∈ L ++ [ij], ¬ biomeMatch g cx cz radius t p) ∧
      (∀ x z d, best = some (x, z, d) →
        ∃ p ∈ L ++ [ij], sampleCoord cx cz radius t p = (x, z) ∧
          biomeMatch g cx cz radius t p ∧ d = sampleDistSq cx cz radius t p ∧
          ∀ q ∈ L ++ [ij], biomeMatch g cx cz radius t q →
            d ≤ sampleDistSq cx cz radius t q) := by
    intro hnm
    constructor
    · rw [h1]
      constructor
      · intro h p hp
        rcases (hmem p).mp hp with hL | rfl
        · exact h p hL
        · exact hnm
      · intro h p hp
        exact h p ((hmem p).mpr (Or.inl hp))
    · intro x z d hbest
      obtain ⟨p, hpL, hc, hm, hdist, hmin⟩ := h2 x z d hbest
      refine ⟨p, (hmem p).mpr (Or.inl hpL), hc, hm, hdist, ?_⟩
      intro q hq hmq
      rcases (hmem q).mp hq with hL | rfl
      · exact hmin q hL hmq
      · exact absurd hmq hnm
  unfold biomeSample
  by_cases hd : sampleDistSq cx cz radius t ij > radius ^ 2
  · rw [if_pos hd]
    exact unchanged (fun hc => absurd hc.1 (by omega))
  · rw [if_neg hd]
    by_cases hgt : g (sampleCoord cx cz radius t ij).1
        (sampleCoord cx cz radius t ij).2 = t
    · have hm : biomeMatch g cx cz radius t ij := ⟨by omega, hgt⟩
      rw [if_pos hgt]
      rcases hbest : best with _ | ⟨⟨bx, bz, bd⟩⟩
      · dsimp only
        constructor
        · constructor
          · intro hcontra
            exact absurd hcontra (Option.some_ne_none _)
          · intro hall
            exact absurd hm (hall ij ((hmem ij).mpr (Or.inr rfl)))
        · intro x z d hsome
          rw [Option.some.injEq, Prod.mk.injEq] at hsome
          obtain ⟨hx, hsome2⟩ := hsome
          rw [Prod.mk.injEq] at hsome2
          obtain ⟨hz, hdv⟩ := hsome2
          refine ⟨ij, (hmem ij).mpr (Or.inr rfl), Prod.ext hx hz, hm,
            hdv.symm, ?_⟩
          intro q hq hmq
          rcases (hmem q).mp hq with hL | rfl
          · exact absurd hmq (h1.mp hbest q hL)
          · omega
      · obtain ⟨p0, hp0L, hc0, hm0, hd0, hmin0⟩ :=
          h2 bx bz bd hbest
        dsimp only
        by_cases hle : bd ≤ sampleDistSq cx cz radius t ij
        · rw [if_pos hle]
          constructor
          · constructor
            · intro hcontra
              exact absurd hcontra (Option.some_ne_none _)
            · intro hall
              exact absurd hm0 (hall p0 ((hmem p0).mpr (Or.inl hp0L)))
          · intro x z d hsome
            rw [Option.some.injEq, Prod.mk.injEq] at hsome
            obtain ⟨hx, hsome2⟩ := hsome
            rw [Prod.mk.injEq] at hsome2
            obtain ⟨hz, hdv⟩ := hsome2
            refine ⟨p0, (hmem p0).mpr (Or.inl hp0L), ?_, hm0, ?_, ?_⟩
            · rw [← hx, ← hz, hc0]
            · rw [← hdv, hd0]
            · intro q hq hmq
              rcases (hmem q).mp hq with hL | rfl
              · rw [← hdv]; exact hmin0 q hL hmq
              · rw [← hdv]; exact hle
        · rw [if_neg hle]
          constructor
          · constructor
            · intro hcontra
              exact absurd hcontra (Option.some_ne_none _)
            · intro hall
              exact absurd hm (hall ij ((hmem ij).mpr (Or.inr rfl)))
          · intro x z d hsome
            rw [Option.some.injEq, Prod.mk.injEq] at hsome
            obtain ⟨hx, hsome2⟩ := hsome
            rw [Prod.mk.injEq] at hsome2
            obtain ⟨hz, hdv⟩ := hsome2
            refine ⟨ij, (hmem ij).mpr (Or.inr rfl), Prod.ext hx hz, hm,
              hdv.symm, ?_⟩
            intro q hq hmq
            rcases (hmem q).mp hq with hL | rfl
            · have := hmin0 q hL hmq
              omega
            · omega
    · rw [if_neg hgt]
      exact unchanged (fun hc => absurd hc.2 hgt)

/-- The full fold of `find_nearest_biome` satisfies the accumulator
invariant over all processed samples. -/
theorem biomeSample_fold_inv (g : ℤ → ℤ → BiomeType) (cx cz radius : ℤ)
    (t : BiomeType) (l : List (ℤ × ℤ)) :
    ∀ (L : List (ℤ × ℤ)) (best : Option (ℤ × ℤ × ℤ)),
      (best = none ↔ ∀ p ∈ L, ¬ biomeMatch g cx cz radius t p) →
      (∀ x z d, best = some (x, z, d) →
        ∃ p ∈ L, sampleCoord cx cz radius t p = (x, z) ∧
          biomeMatch g cx cz radius t p ∧ d = sampleDistSq cx cz radius t p ∧
          ∀ q ∈ L, biomeMatch g cx cz radius t q →
            d ≤ sampleDistSq cx cz radius t q) →
      ((l.foldl (biomeSample g cx cz radius t) best = none ↔
        ∀ p ∈ L ++ l, ¬ biomeMatch g cx cz radius t p) ∧
       (∀ x z d, l.foldl (biomeSample g cx cz radius t) best = some (x, z, d) →
        ∃ p ∈ L ++ l, sampleCoord cx cz radius t p = (x, z) ∧
          biomeMatch g cx cz radius t p ∧ d = sampleDistSq cx cz radius t p ∧
          ∀ q ∈ L ++ l, biomeMatch g cx cz radius t q →
            d ≤ sampleDistSq cx cz radius t q)) := by
  induction l with
  | nil =>
      intro L best h1 h2
      rw [List.foldl_nil, List.append_nil]
      exact ⟨h1, h2⟩
  | cons ij tl ih =>
      intro L best h1 h2
      rw [List.foldl_cons]
      have hstep := biomeSample_step_inv g cx cz radius t L ij best h1 h2
      have := ih (L ++ [ij]) (biomeSample g cx cz radius t best ij)
        hstep.1 hstep.2
      rwa [List.append_assoc, List.singleton_append] at this

/-- C8.  `find_nearest_biome` returns `none` exactly when the target name
does not parse or no evaluated sample inside the radius classifies as the
target; otherwise it returns an evaluated sample that classifies as the
target, lies inside the radius, and has minimal (squared) distance among
all evaluated matching samples, together with that distance.  (The source
returns the `f64` square root of the returned squared distance and
compares square roots where this statement compares squared distances;
square root is monotone, so the minimization is the same.) -/
theorem c8_nearest_contract (g : ℤ → ℤ → BiomeType) (cx cz radius : ℤ)
    (target_biome : String) :
    (find_nearest_biome g cx cz radius target_biome = none ↔
      BiomeType.from_str target_biome = none ∨
      (∃ t, BiomeType.from_str target_biome = some t ∧
        ∀ ij ∈ sampleIndices (samples_per_axis radius t),
          ¬ biomeMatch g cx cz radius t ij)) ∧
    (∀ x z d, find_nearest_biome g cx cz radius target_biome = some (x, z, d) →
      ∃ t, BiomeType.from_str target_biome = some t ∧
        ∃ ij ∈ sampleIndices (samples_per_axis radius t),
          sampleCoord cx cz radius t ij = (x, z) ∧
          g x z = t ∧
          d = sampleDistSq cx cz radius t ij ∧
          d ≤ radius ^ 2 ∧
          ∀ ij2 ∈ sampleIndices (samples_per_axis radius t),
            biomeMatch g cx cz radius t ij2 →
              d ≤ sampleDistSq cx cz radius t ij2) := by
  unfold find_nearest_biome
  cases hfs : BiomeType.from_str target_biome with
  | none =>
      constructor
      · constructor
        · intro _
          exact Or.inl rfl
        · intro _
          rfl
      · intro x z d h
        exact absurd h (by simp)
  | some t =>
      have hinv := biomeSample_fold_inv g cx cz radius t
        (sampleIndices (samples_per_axis radius t)) [] none
        (by simp) (by intro x z d h; simp at h)
      rw [List.nil_append] at hinv
      constructor
      · rw [hinv.1]
        constructor
        · intro hall
          exact Or.inr ⟨t, rfl, hall⟩
        · rintro (hc | ⟨t2, ht2, hall⟩)
          · exact absurd hc (by simp)
          · rw [Option.some.injEq] at ht2
            rwa [ht2]
      · intro x z d h
        obtain ⟨p, hpmem, hcoord, hmatch, hdist, hmin⟩ := hinv.2 x z d h
        refine ⟨t, rfl, p, hpmem, hcoord, ?_, hdist, ?_, hmin⟩
        · have := hmatch.2
          rwa [hcoord] at this
        · rw [hdist]
          exact hmatch.1

theorem spacing_mul_bounds (st : StructureType) :
    128 ≤ st.spacing * 16 ∧ st.spacing * 16 ≤ 1280 := by
  cases st <;> decide

theorem offset_range_le (st : StructureType) :
    1 ≤ st.spacing - st.separation ∧ st.spacing - st.separation ≤ 2 ^ 31 ∧
      (st.spacing - st.separation) * 16 ≤ st.spacing * 16 := by
  cases st <;> decide

theorem structCell_eq_G (seed cx cz radius : ℤ) (st : StructureType) (rx rz : ℤ) :
    structCell seed cx cz radius st rx rz =
      structCellG st.display_name cx cz radius st.spacing
        ((next_int (get_structure_seed seed rx rz st.salt)
          (st.spacing - st.separation)).2)
        ((next_int (next_int (get_structure_seed seed rx rz st.salt)
          (st.spacing - st.separation)).1 (st.spacing - st.separation)).2)
        rx rz := rfl

theorem specStructCell_eq_G (seed cx cz radius : ℤ) (st : StructureType) (rx rz : ℤ) :
    specStructCell seed cx cz radius st rx rz =
      specStructCellG st.display_name cx cz radius st.spacing
        ((next_int (get_structure_seed seed rx rz st.salt)
          (st.spacing - st.separation)).2)
        ((next_int (next_int (get_structure_seed seed rx rz st.salt)
          (st.spacing - st.separation)).1 (st.spacing - st.separation)).2)
        rx rz := rfl

/-- Inside the widened region window, the code's per-region cell (wrapping
arithmetic) agrees with the spec's exact-arithmetic cell: every wrap is the
identity on the values that can pass the radius filter, and values that
cannot pass it are filtered on both sides. -/
theorem structCellG_eq_spec (name : String) (cx cz radius sp ox oz rx rz : ℤ)
    (hsp1 : 128 ≤ sp * 16) (hsp2 : sp * 16 ≤ 1280)
    (hox1 : 0 ≤ ox) (hox2 : ox * 16 ≤ sp * 16 - 16)
    (hoz1 : 0 ≤ oz) (hoz2 : oz * 16 ≤ sp * 16 - 16)
    (hr0 : 0 ≤ radius) (hrB : radius ≤ 2 ^ 31 - 6000)
    (hx1 : -2 ^ 31 ≤ cx - radius) (hx2 : cx + radius ≤ 2 ^ 31 - 1)
    (hz1 : -2 ^ 31 ≤ cz - radius) (hz2 : cz + radius ≤ 2 ^ 31 - 1)
    (hrx1 : (cx - radius).fdiv (sp * 16) - 1 ≤ rx)
    (hrx2 : rx ≤ (cx + radius).tdiv (sp * 16) + 1)
    (hrz1 : (cz - radius).fdiv (sp * 16) - 1 ≤ rz)
    (hrz2 : rz ≤ (cz + radius).tdiv (sp * 16) + 1) :
    structCellG name cx cz radius sp ox oz rx rz =
      specStructCellG name cx cz radius sp ox oz rx rz := by
  have hsbpos : (0 : ℤ) < sp * 16 := by omega
  have hfx := fdiv_sandwich (cx - radius) hsbpos
  have htx := tdiv_sandwich (cx + radius) hsbpos
  have hfz := fdiv_sandwich (cz - radius) hsbpos
  have htz := tdiv_sandwich (cz + radius) hsbpos
  have hmul_lo_x : ((cx - radius).fdiv (sp * 16) - 1) * (sp * 16) ≤
      rx * (sp * 16) := mul_le_mul_of_nonneg_right hrx1 (by omega)
  have hmul_hi_x : rx * (sp * 16) ≤
      ((cx + radius).tdiv (sp * 16) + 1) * (sp * 16) :=
    mul_le_mul_of_nonneg_right hrx2 (by omega)
  have hmul_lo_z : ((cz - radius).fdiv (sp * 16) - 1) * (sp * 16) ≤
      rz * (sp * 16) := mul_le_mul_of_nonneg_right hrz1 (by omega)
  have hmul_hi_z : rz * (sp * 16) ≤
      ((cz + radius).tdiv (sp * 16) + 1) * (sp * 16) :=
    mul_le_mul_of_nonneg_right hrz2 (by omega)
  have htbx : cx - radius - 2 * (sp * 16) + 9 ≤ (rx * sp + ox) * 16 + 8 ∧
      (rx * sp + ox) * 16 + 8 ≤ cx + radius + 3 * (sp * 16) - 8 :=
    ⟨by linarith [hmul_lo_x, hfx.2], by linarith [hmul_hi_x, htx.2]⟩
  have htbz : cz - radius - 2 * (sp * 16) + 9 ≤ (rz * sp + oz) * 16 + 8 ∧
      (rz * sp + oz) * 16 + 8 ≤ cz + radius + 3 * (sp * 16) - 8 :=
    ⟨by linarith [hmul_lo_z, hfz.2], by linarith [hmul_hi_z, htz.2]⟩
  simp only [structCellG, specStructCellG]
  have hwx : wrap32 (wrap32 (rx * sp + ox) * 16 + 8) =
      wrap32 ((rx * sp + ox) * 16 + 8) :=
    wrap32_congr (((wrap32_modEq _).mul_right 16).add_right 8)
  have hwz : wrap32 (wrap32 (rz * sp + oz) * 16 + 8) =
      wrap32 ((rz * sp + oz) * 16 + 8) :=
    wrap32_congr (((wrap32_modEq _).mul_right 16).add_right 8)
  rw [hwx, hwz, wrap32_sub_left, wrap32_sub_left]
  have hdx : wrap32 ((rx * sp + ox) * 16 + 8 - cx) =
      (rx * sp + ox) * 16 + 8 - cx :=
    wrap32_eq_self (by linarith [htbx.1]) (by linarith [htbx.2])
  have hdz : wrap32 ((rz * sp + oz) * 16 + 8 - cz) =
      (rz * sp + oz) * 16 + 8 - cz :=
    wrap32_eq_self (by linarith [htbz.1]) (by linarith [htbz.2])
  rw [hdx, hdz]
  have habsx : ((rx * sp + ox) * 16 + 8 - cx) ^ 2 ≤
      (radius + 3 * (sp * 16)) ^ 2 :=
    sq_le_sq' (by linarith [htbx.1]) (by linarith [htbx.2])
  have habsz : ((rz * sp + oz) * 16 + 8 - cz) ^ 2 ≤
      (radius + 3 * (sp * 16)) ^ 2 :=
    sq_le_sq' (by linarith [htbz.1]) (by linarith [htbz.2])
  have hM : (radius + 3 * (sp * 16)) ^ 2 < 2 ^ 62 := by
    calc (radius + 3 * (sp * 16)) ^ 2 < (2 ^ 31) ^ 2 :=
          sq_lt_sq' (by omega) (by omega)
      _ = 2 ^ 62 := by norm_num
  have hsum : wrap64 (((rx * sp + ox) * 16 + 8 - cx) ^ 2 +
      ((rz * sp + oz) * 16 + 8 - cz) ^ 2) =
      ((rx * sp + ox) * 16 + 8 - cx) ^ 2 +
      ((rz * sp + oz) * 16 + 8 - cz) ^ 2 := by
    apply wrap64_eq_self
    · have h1 := sq_nonneg ((rx * sp + ox) * 16 + 8 - cx)
      have h2 := sq_nonneg ((rz * sp + oz) * 16 + 8 - cz)
      have h63 : (0 : ℤ) ≤ 2 ^ 63 := by norm_num
      linarith
    · have h62 : ((2 : ℤ) ^ 63) = 2 ^ 62 + 2 ^ 62 := by norm_num
      linarith
  rw [hsum]
  split_ifs with hcond
  · have hx2' : ((rx * sp + ox) * 16 + 8 - cx) ^ 2 ≤ radius ^ 2 := by
      linarith [sq_nonneg ((rz * sp + oz) * 16 + 8 - cz)]
    have hz2' : ((rz * sp + oz) * 16 + 8 - cz) ^ 2 ≤ radius ^ 2 := by
      linarith [sq_nonneg ((rx * sp + ox) * 16 + 8 - cx)]
    have hbx := abs_le_of_sq_le_sq_int hx2' hr0
    have hbz := abs_le_of_sq_le_sq_int hz2' hr0
    rw [wrap32_eq_self (by linarith [hbx.1]) (by linarith [hbx.2]),
      wrap32_eq_self (by linarith [hbz.1]) (by linarith [hbz.2])]
  · rfl

theorem sq_lt_sq_of_lt_neg {a r : ℤ} (h : a < -r) (hr : 0 ≤ r) : r ^ 2 < a ^ 2 := by
  nlinarith

theorem sq_lt_sq_of_gt {a r : ℤ} (h : r < a) (hr : 0 ≤ r) : r ^ 2 < a ^ 2 := by
  nlinarith

theorem specStructCellG_nil_lo_x (name : String) (cx cz radius sp ox oz rx rz : ℤ)
    (hsp1 : 128 ≤ sp * 16) (hox1 : 0 ≤ ox) (hox2 : ox * 16 ≤ sp * 16 - 16)
    (hr0 : 0 ≤ radius)
    (hrx : rx ≤ (cx - radius).tdiv (sp * 16) - 2) :
    specStructCellG name cx cz radius sp ox oz rx rz = [] := by
  have hsbpos : (0 : ℤ) < sp * 16 := by omega
  have hfx := fdiv_sandwich (cx - radius) hsbpos
  have hft := fdiv_le_tdiv (cx - radius) hsbpos
  have hmul : rx * (sp * 16) ≤ ((cx - radius).tdiv (sp * 16) - 2) * (sp * 16) :=
    mul_le_mul_of_nonneg_right hrx (by omega)
  have hmul2 : ((cx - radius).tdiv (sp * 16)) * (sp * 16) ≤
      ((cx - radius).fdiv (sp * 16) + 1) * (sp * 16) :=
    mul_le_mul_of_nonneg_right hft.2 (by omega)
  have htb : (rx * sp + ox) * 16 + 8 < cx - radius := by
    linarith [hfx.1, hmul, hmul2]
  simp only [specStructCellG]
  rw [if_neg]
  intro hcond
  have := sq_lt_sq_of_lt_neg
    (show (rx * sp + ox) * 16 + 8 - cx < -radius by linarith) hr0
  linarith [sq_nonneg ((rz * sp + oz) * 16 + 8 - cz)]

theorem specStructCellG_nil_hi_x (name : String) (cx cz radius sp ox oz rx rz : ℤ)
    (hsp1 : 128 ≤ sp * 16) (hox1 : 0 ≤ ox) (hox2 : ox * 16 ≤ sp * 16 - 16)
    (hr0 : 0 ≤ radius)
    (hrx : (cx + radius).fdiv (sp * 16) + 2 ≤ rx) :
    specStructCellG name cx cz radius sp ox oz rx rz = [] := by
  have hsbpos : (0 : ℤ) < sp * 16 := by omega
  have hfx := fdiv_sandwich (cx + radius) hsbpos
  have hmul : ((cx + radius).fdiv (sp * 16) + 2) * (sp * 16) ≤ rx * (sp * 16) :=
    mul_le_mul_of_nonneg_right hrx (by omega)
  have htb : cx + radius < (rx * sp + ox) * 16 + 8 := by
    linarith [hfx.2, hmul]
  simp only [specStructCellG]
  rw [if_neg]
  intro hcond
  have := sq_lt_sq_of_gt
    (show radius < (rx * sp + ox) * 16 + 8 - cx by linarith) hr0
  linarith [sq_nonneg ((rz * sp + oz) * 16 + 8 - cz)]

theorem specStructCellG_nil_lo_z (name : String) (cx cz radius sp ox oz rx rz : ℤ)
    (hsp1 : 128 ≤ sp * 16) (hoz1 : 0 ≤ oz) (hoz2 : oz * 16 ≤ sp * 16 - 16)
    (hr0 : 0 ≤ radius)
    (hrz : rz ≤ (cz - radius).tdiv (sp * 16) - 2) :
    specStructCellG name cx cz radius sp ox oz rx rz = [] := by
  have hsbpos : (0 : ℤ) < sp * 16 := by omega
  have hfz := fdiv_sandwich (cz - radius) hsbpos
  have hft := fdiv_le_tdiv (cz - radius) hsbpos
  have hmul : rz * (sp * 16) ≤ ((cz - radius).tdiv (sp * 16) - 2) * (sp * 16) :=
    mul_le_mul_of_nonneg_right hrz (by omega)
  have hmul2 : ((cz - radius).tdiv (sp * 16)) * (sp * 16) ≤
      ((cz - radius).fdiv (sp * 16) + 1) * (sp * 16) :=
    mul_le_mul_of_nonneg_right hft.2 (by omega)
  have htb : (rz * sp + oz) * 16 + 8 < cz - radius := by
    linarith [hfz.1, hmul, hmul2]
  simp only [specStructCellG]
  rw [if_neg]
  intro hcond
  have := sq_lt_sq_of_lt_neg
    (show (rz * sp + oz) * 16 + 8 - cz < -radius by linarith) hr0
  linarith [sq_nonneg ((rx * sp + ox) * 16 + 8 - cx)]

theorem specStructCellG_nil_hi_z (name : String) (cx cz radius sp ox oz rx rz : ℤ)
    (hsp1 : 128 ≤ sp * 16) (hoz1 : 0 ≤ oz) (hoz2 : oz * 16 ≤ sp * 16 - 16)
    (hr0 : 0 ≤ radius)
    (hrz : (cz + radius).fdiv (sp * 16) + 2 ≤ rz) :
    specStructCellG name cx cz radius sp ox oz rx rz = [] := by
  have hsbpos : (0 : ℤ) < sp * 16 := by omega
  have hfz := fdiv_sandwich (cz + radius) hsbpos
  have hmul : ((cz + radius).fdiv (sp * 16) + 2) * (sp * 16) ≤ rz * (sp * 16) :=
    mul_le_mul_of_nonneg_right hrz (by omega)
  have htb : cz + radius < (rz * sp + oz) * 16 + 8 := by
    linarith [hfz.2, hmul]
  simp only [specStructCellG]
  rw [if_neg]
  intro hcond
  have := sq_lt_sq_of_gt
    (show radius < (rz * sp + oz) * 16 + 8 - cz by linarith) hr0
  linarith [sq_nonneg ((rx * sp + ox) * 16 + 8 - cx)]

theorem flatMap_congr_mem {α β : Type} {l : List α} {f : α → List β}
    (g : α → List β) (h : ∀ x ∈ l, f x = g x) : l.flatMap f = l.flatMap g := by
  induction l with
  | nil => rfl
  | cons a t ih =>
      rw [List.flatMap_cons, List.flatMap_cons, h a (List.mem_cons_self a t),
        ih (fun x hx => h x (List.mem_cons_of_mem a hx))]

theorem flatMap_intRange_nil {α : Type} {lo hi : ℤ} (f : ℤ → List α)
    (h : ∀ x, lo ≤ x → x ≤ hi → f x = []) :
    (intRange lo hi).flatMap f = [] := by
  rcases le_or_lt lo hi with hle | hgt
  · rw [flatMap_intRange_trim_lo f (show lo ≤ hi + 1 by omega)
      (fun x h1 h2 => h x h1 (by omega)), intRange_eq_nil (by omega)]
    rfl
  · rw [intRange_eq_nil hgt]
    rfl

set_option maxHeartbeats 1600000 in
/-- C3 (amended).  Under non-overflowing query bounds, `find_structures`
returns exactly the list the spec's §4.3 pipeline produces: the regions of
the bounding square (floor division) expanded by one on each side, one
RPRNG candidate per region (offset x then z, each bounded by
`spacing - separation`), block position `chunk*16 + 8`, filtered by exact
squared distance.  (`c3_counterexample` shows the unrestricted claim fails
when the bounding square overflows `i32`.) -/
theorem c3_structures_spec_equiv (seed cx cz radius : ℤ) (st : StructureType)
    (hr0 : 0 ≤ radius) (hrB : radius ≤ 2 ^ 31 - 6000)
    (hx1 : -2 ^ 31 ≤ cx - radius) (hx2 : cx + radius ≤ 2 ^ 31 - 1)
    (hz1 : -2 ^ 31 ≤ cz - radius) (hz2 : cz + radius ≤ 2 ^ 31 - 1) :
    find_structures seed cx cz radius st =
      specFindStructures seed cx cz radius st := by
  obtain ⟨hsb1, hsb2⟩ := spacing_mul_bounds st
  obtain ⟨hof1, hof2, hof3⟩ := offset_range_le st
  have hsbpos : (0 : ℤ) < st.spacing * 16 := by omega
  have hftx := fdiv_le_tdiv (cx - radius) hsbpos
  have hftx2 := fdiv_le_tdiv (cx + radius) hsbpos
  have hftz := fdiv_le_tdiv (cz - radius) hsbpos
  have hftz2 := fdiv_le_tdiv (cz + radius) hsbpos
  have hmonox : (cx - radius).fdiv (st.spacing * 16) ≤
      (cx + radius).fdiv (st.spacing * 16) := by
    have h1 := fdiv_sandwich (cx - radius) hsbpos
    have h2 := fdiv_sandwich (cx + radius) hsbpos
    nlinarith [h1.1, h2.2, hsbpos]
  have hmonoz : (cz - radius).fdiv (st.spacing * 16) ≤
      (cz + radius).fdiv (st.spacing * 16) := by
    have h1 := fdiv_sandwich (cz - radius) hsbpos
    have h2 := fdiv_sandwich (cz + radius) hsbpos
    nlinarith [h1.1, h2.2, hsbpos]
  -- offset bounds for any region pair
  have hoxb : ∀ rx rz : ℤ,
      0 ≤ (next_int (get_structure_seed seed rx rz st.salt)
        (st.spacing - st.separation)).2 ∧
      (next_int (get_structure_seed seed rx rz st.salt)
        (st.spacing - st.separation)).2 * 16 ≤ st.spacing * 16 - 16 := by
    intro rx rz
    obtain ⟨h1, h2⟩ := next_int_val_bounds
      (get_structure_seed seed rx rz st.salt) hof1 hof2
    exact ⟨h1, by linarith [hof3]⟩
  have hozb : ∀ rx rz : ℤ,
      0 ≤ (next_int (next_int (get_structure_seed seed rx rz st.salt)
        (st.spacing - st.separation)).1 (st.spacing - st.separation)).2 ∧
      (next_int (next_int (get_structure_seed seed rx rz st.salt)
        (st.spacing - st.separation)).1 (st.spacing - st.separation)).2 * 16 ≤
        st.spacing * 16 - 16 := by
    intro rx rz
    obtain ⟨h1, h2⟩ := next_int_val_bounds
      (next_int (get_structure_seed seed rx rz st.salt)
        (st.spacing - st.separation)).1 hof1 hof2
    exact ⟨h1, by linarith [hof3]⟩
  -- cell-level facts
  have cell_eq : ∀ rx rz : ℤ,
      (cx - radius).fdiv (st.spacing * 16) - 1 ≤ rx →
      rx ≤ (cx + radius).tdiv (st.spacing * 16) + 1 →
      (cz - radius).fdiv (st.spacing * 16) - 1 ≤ rz →
      rz ≤ (cz + radius).tdiv (st.spacing * 16) + 1 →
      structCell seed cx cz radius st rx rz =
        specStructCell seed cx cz radius st rx rz := by
    intro rx rz h1 h2 h3 h4
    rw [structCell_eq_G, specStructCell_eq_G]
    exact structCellG_eq_spec _ cx cz radius st.spacing _ _ rx rz hsb1 hsb2
      (hoxb rx rz).1 (hoxb rx rz).2 (hozb rx rz).1 (hozb rx rz).2
      hr0 hrB hx1 hx2 hz1 hz2 h1 h2 h3 h4
  have cell_nil_lo_x : ∀ rx rz : ℤ,
      (cx - radius).fdiv (st.spacing * 16) - 1 ≤ rx →
      rx ≤ (cx - radius).tdiv (st.spacing * 16) - 2 →
      (cz - radius).fdiv (st.spacing * 16) - 1 ≤ rz →
      rz ≤ (cz + radius).tdiv (st.spacing * 16) + 1 →
      structCell seed cx cz radius st rx rz = [] := by
    intro rx rz h1 h2 h3 h4
    rw [cell_eq rx rz h1 (by omega) h3 h4, specStructCell_eq_G]
    exact specStructCellG_nil_lo_x _ cx cz radius st.spacing _ _ rx rz hsb1
      (hoxb rx rz).1 (hoxb rx rz).2 hr0 h2
  have cell_nil_lo_z : ∀ rx rz : ℤ,
      (cx - radius).fdiv (st.spacing * 16) - 1 ≤ rx →
      rx ≤ (cx + radius).tdiv (st.spacing * 16) + 1 →
      (cz - radius).fdiv (st.spacing * 16) - 1 ≤ rz →
      rz ≤ (cz - radius).tdiv (st.spacing * 16) - 2 →
      structCell seed cx cz radius st rx rz = [] := by
    intro rx rz h1 h2 h3 h4
    rw [cell_eq rx rz h1 h2 h3 (by omega), specStructCell_eq_G]
    exact specStructCellG_nil_lo_z _ cx cz radius st.spacing _ _ rx rz hsb1
      (hozb rx rz).1 (hozb rx rz).2 hr0 h4
  have spec_nil_hi_x : ∀ rx rz : ℤ,
      (cx + radius).fdiv (st.spacing * 16) + 2 ≤ rx →
      specStructCell seed cx cz radius st rx rz = [] := by
    intro rx rz h1
    rw [specStructCell_eq_G]
    exact specStructCellG_nil_hi_x _ cx cz radius st.spacing _ _ rx rz hsb1
      (hoxb rx rz).1 (hoxb rx rz).2 hr0 h1
  have spec_nil_hi_z : ∀ rx rz : ℤ,
      (cz + radius).fdiv (st.spacing * 16) + 2 ≤ rz →
      specStructCell seed cx cz radius st rx rz = [] := by
    intro rx rz h1
    rw [specStructCell_eq_G]
    exact specStructCellG_nil_hi_z _ cx cz radius st.spacing _ _ rx rz hsb1
      (hozb rx rz).1 (hozb rx rz).2 hr0 h1
  simp only [find_structures, specFindStructures]
  rw [@wrap32_eq_self (cx - radius) (by omega) (by omega),
    @wrap32_eq_self (cx + radius) (by omega) (by omega),
    @wrap32_eq_self (cz - radius) (by omega) (by omega),
    @wrap32_eq_self (cz + radius) (by omega) (by omega)]
  -- widen the code's x-window down to the spec's lower edge
  rw [← flatMap_intRange_trim_lo
    (fun region_x => (intRange ((cz - radius).tdiv (st.spacing * 16) - 1)
      ((cz + radius).tdiv (st.spacing * 16) + 1)).flatMap
        fun region_z => structCell seed cx cz radius st region_x region_z)
    (show (cx - radius).fdiv (st.spacing * 16) - 1 ≤
      (cx - radius).tdiv (st.spacing * 16) - 1 by omega)
    (fun rx hr1 hr2 => flatMap_intRange_nil _
      (fun rz hz1' hz2' => cell_nil_lo_x rx rz hr1 (by omega)
        (by omega) hz2'))]
  -- rows agree on the common window
  rw [flatMap_congr_mem (fun region_x =>
      (intRange ((cz - radius).fdiv (st.spacing * 16) - 1)
        ((cz + radius).fdiv (st.spacing * 16) + 1)).flatMap
          fun region_z => specStructCell seed cx cz radius st region_x region_z)
    (fun rx hrx => ?_)]
  · -- trim the spec's x-window back from the code's upper edge
    rw [flatMap_intRange_trim_hi _
      (show (cx + radius).fdiv (st.spacing * 16) + 1 ≤
        (cx + radius).tdiv (st.spacing * 16) + 1 by omega)
      (fun rx hr1 hr2 => flatMap_intRange_nil _
        (fun rz hz1' hz2' => spec_nil_hi_x rx rz (by omega)))]
  · -- one row: widen, replace cells, then trim
    rw [mem_intRange] at hrx
    rw [← flatMap_intRange_trim_lo
      (fun region_z => structCell seed cx cz radius st rx region_z)
      (show (cz - radius).fdiv (st.spacing * 16) - 1 ≤
        (cz - radius).tdiv (st.spacing * 16) - 1 by omega)
      (fun rz hz1' hz2' => cell_nil_lo_z rx rz hrx.1 hrx.2 hz1' (by omega))]
    rw [flatMap_congr_mem (fun region_z =>
        specStructCell seed cx cz radius st rx region_z)
      (fun rz hrz => by
        rw [mem_intRange] at hrz
        exact cell_eq rx rz hrx.1 hrx.2 hrz.1 hrz.2)]
    rw [flatMap_intRange_trim_hi _
      (show (cz + radius).fdiv (st.spacing * 16) + 1 ≤
        (cz + radius).tdiv (st.spacing * 16) + 1 by omega)
      (fun rz hz1' hz2' => spec_nil_hi_z rx rz (by omega))]

/-- Witness for C2's amended theorem at a concrete query. -/
theorem c2_quadrant_exclusive_witness :
    List.Pairwise
      (fun a b : String × ℤ × ℤ =>
        nonnegCoords a → nonnegCoords b → quadrantPair a ≠ quadrantPair b)
      (find_nether_structures 12345 0 0 600) :=
  c2_quadrant_exclusive 12345 0 0 600 (by norm_num) (by norm_num)
    (by norm_num) (by norm_num) (by norm_num) (by norm_num)

/-- Witness for C3's amended theorem at the repository test's query. -/
theorem c3_structures_spec_equiv_witness :
    find_structures 12345 0 0 1000 StructureType.Village =
      specFindStructures 12345 0 0 1000 StructureType.Village :=
  c3_structures_spec_equiv 12345 0 0 1000 StructureType.Village (by norm_num)
    (by norm_num) (by norm_num) (by norm_num) (by norm_num) (by norm_num)

/-- Witness for C5's amended theorem at a concrete quadrant. -/
theorem c5_quadrant_selection_witness :
    ∃ k : ℕ,
      netherQuadrant 0 0 0 600 [] 0 0 =
        [] ++ List.replicate k (netherEntry 0 0 0) ∧
      k ≤ 3 ∧
      (netherGuard [] 0 0 = true → k = 0) ∧
      (netherGuard [] 0 0 = false → ((1 ≤ k) ↔ netherReached 0 0 600 0 0)) ∧
      ((netherEntry 0 0 0).1 = "🔥 ネザー要塞" ∨
        (netherEntry 0 0 0).1 = "🏚️ バスティオン") ∧
      ((netherEntry 0 0 0).1 = "🔥 ネザー要塞" ↔
        (next_int (get_structure_seed 0 0 0 30084232) 100).2 < 33) ∧
      (netherEntry 0 0 0).2.1 =
        wrap32 (0 * 480 +
          ((next_int (next_int (get_structure_seed 0 0 0 30084232) 100).1
            280).2 + 100)) ∧
      (netherEntry 0 0 0).2.2 =
        wrap32 (0 * 480 +
          ((next_int (next_int (next_int (get_structure_seed 0 0 0 30084232)
            100).1 280).1 280).2 + 100)) :=
  c5_quadrant_selection 0 0 0 600 [] 0 0

/-- Witness for C6's tree equivalence at concrete noise values. -/
theorem c6_biome_tree_witness :
    get_biome_at 0 0 0 0 0 0 0 = specClassify 0 0 0 0 0 0 0 :=
  c6_biome_tree 0 0 0 0 0 0 0

/-- Witness for C8's contract: an unrecognized target name yields `none`. -/
theorem c8_nearest_contract_witness :
    find_nearest_biome (fun _ _ => BiomeType.Plains) 0 0 300 "not_a_biome" =
      none :=
  ((c8_nearest_contract (fun _ _ => BiomeType.Plains) 0 0 300 "not_a_biome").1).mpr
    (Or.inl (by decide))

/-- Witness for C9 at a concrete kind. -/
theorem c9_config_safe_witness :
    StructureType.Village.separation < StructureType.Village.spacing ∧
      1 ≤ StructureType.Village.spacing - StructureType.Village.separation :=
  c9_config_safe StructureType.Village

/-- Witness for C10 at concrete inputs. -/
theorem c10_unknown_unreachable_witness :
    (get_biome_at 0 0 0 0 0 0 0).isKnown = true ∧
      (BiomeType.from_str "plains").all BiomeType.isKnown = true :=
  ⟨c10_unknown_unreachable.1 0 0 0 0 0 0 0,
   c10_unknown_unreachable.2 "plains"⟩
